import Mathlib

/-! # NoteLicker `FileHelper`: file-location resolution and existence cache

A shallow embedding of `src/lib/FileHelper.mjs`.

* The process-wide caches `CONFIG.NOTELICKER.KNOWN` are an explicit value `Known`
  that every operation takes and returns.
* A JavaScript `Set` of strings is an insertion-ordered list without repeated
  `add`s (`setAdd`, `setHas`).
* A plain object used as a dictionary is the association list of its own
  string-keyed properties (`objGet`, `objSet`) read and written as JavaScript does
  (`plainGet`, `plainSet`, `targetsGet`): a key that is not an own property is looked
  up in `Object.prototype`, and assigning a string to the key `__proto__` stores
  nothing. What `Object.prototype` holds, and the members of values that are not
  dictionaries of `FileHelper`, belong to the JavaScript engine and are fields of
  `Host`.
* `async` functions are run to completion: a rejected promise is `Except.error`,
  and the state reached at the moment of the rejection is still returned, since
  JavaScript does not roll back mutations when an exception is thrown.
* The collaborators that are not part of `FileHelper.mjs` (`DirectoryPicker.parse`,
  `DirectoryPicker.browse`, `ForgeVTT`, `ForgeAPI`, `game.data.files.s3`) are the
  fields of `Host`. `browse` and the identity lookup are indexed by the number of
  calls made so far, so that they may answer differently on every call.
* Strings are sequences of Unicode scalar values, so `encodeURI` never meets a lone
  surrogate. Directory references, filenames and the entries of a listing are
  strings.
* `logger` calls have no effect on the caches and are left out.
-/

namespace NoteLicker

/-! ## Values -/

/-- A thrown JavaScript error value: its `name` and its `message`. -/
structure JSError where
  name : String
  message : String
deriving DecidableEq, Repr

/-- The object returned by `DirectoryPicker.parse`. Each field holds the text the
property renders to in a template literal. -/
structure Dir where
  activeSource : String
  current : String
  bucket : String
deriving DecidableEq, Repr

/-- The object `DirectoryPicker.browse` resolves to. -/
structure Listing where
  files : List String
  dirs : List String
  bazaar : Bool
deriving DecidableEq, Repr

/-- A JavaScript value as `FileHelper` meets one where it resolves a URL:
`undefined`, a string, or any other value (a built-in function, `Object.prototype`,
a number, ...), of which only the truthiness and the text it renders to in a
template literal are recorded. -/
inductive JSVal where
  | undefined
  | str (s : String)
  | foreign (truthy : Bool) (text : String)
deriving DecidableEq, Repr

/-- The host environment `FileHelper` runs in.

* `usingTheForge` is `typeof ForgeVTT !== "undefined" && ForgeVTT?.usingTheForge`;
* `parse` is `DirectoryPicker.parse`;
* `browse n source path bucket` is the outcome of the `n`-th call (counting from 0)
  of `DirectoryPicker.browse(source, path, {bucket})`;
* `lastStatus n` is what reading `ForgeAPI.lastStatus` gives after `n` calls of
  `ForgeAPI.status()`: an error when the read throws, `none` when the value is
  falsy, `some user` when it is an object whose `user` renders to `user`;
* `status n` is the outcome of the `n`-th call of `ForgeAPI.status()` followed by
  reading `.user` from what it resolves to;
* `s3hostname` is the outcome of reading `game.data.files.s3.endpoint.hostname`;
* `objectPrototype key` is the value of `Object.prototype[key]` for a key other than
  `__proto__`, that is what reading `key` from a plain object without such an own
  property gives: `undefined` when `Object.prototype` has no such member;
* `memberOf v key` is the outcome of reading `v[key]` for a value `v` that is a
  string or a `foreign` value: the read may throw, as reading `caller` from a
  built-in function does. -/
structure Host where
  usingTheForge : Bool
  parse : String → Except JSError Dir
  browse : Nat → String → String → String → Except JSError Listing
  lastStatus : Nat → Except JSError (Option String)
  status : Nat → Except JSError String
  s3hostname : Except JSError String
  objectPrototype : String → JSVal
  memberOf : JSVal → String → Except JSError JSVal

/-- The two Forge dictionaries, `CONFIG.NOTELICKER.KNOWN.FORGE`, each by its own
properties; in `TARGETS` the entry under `__proto__`, if any, is the object that
`TARGETS["__proto__"] = {}` installed as the prototype of `TARGETS`. -/
structure Forge where
  TARGETS : List (String × List (String × String))
  TARGET_URL_PREFIX : List (String × String)
deriving DecidableEq, Repr

/-- The caches `CONFIG.NOTELICKER.KNOWN`. -/
structure Known where
  FILES : List String
  DIRS : List String
  CHECKED_DIRS : List String
  FORGE : Forge
deriving DecidableEq, Repr

/-- One recorded invocation of `DirectoryPicker.browse`: its arguments and whether
it threw. -/
structure BrowseCall where
  source : String
  path : String
  bucket : String
  threw : Bool
deriving DecidableEq, Repr

/-- The caches together with the record of the external calls made so far. -/
structure World where
  known : Known
  browseLog : List BrowseCall
  statusCalls : Nat
deriving DecidableEq, Repr

/-! ## JavaScript primitives -/

/-- `set.has(x)`. -/
def setHas (s : List String) (x : String) : Bool := s.contains x

/-- `set.add(x)`: a present value is not inserted again. -/
def setAdd (s : List String) (x : String) : List String :=
  if setHas s x then s else s ++ [x]

/-- `set.has(v)` for any value; the sets hold strings only. -/
def setHasVal (s : List String) : JSVal → Bool
  | .str x => setHas s x
  | _ => false

/-- The own property `k` of an object, if it has one. -/
def objGet {α : Type} (o : List (String × α)) (k : String) : Option α := o.lookup k

/-- Define the own property `k`: overwrite it in place, or append it. -/
def objSet {α : Type} : List (String × α) → String → α → List (String × α)
  | [], k, v => [(k, v)]
  | (k0, v0) :: rest, k, v => if k0 == k then (k0, v) :: rest else (k0, v0) :: objSet rest k v

/-- Truthiness of a value. -/
def truthy : JSVal → Bool
  | .undefined => false
  | .str s => s != ""
  | .foreign t _ => t

/-- `String(v)`, as a template literal renders a value. -/
def jsToString : JSVal → String
  | .undefined => "undefined"
  | .str s => s
  | .foreign _ text => text

/-- `Object.prototype` itself, which reading `__proto__` from a plain object gives
(ECMA-262, B.2.2.1): an object, so truthy, rendering to `[object Object]`. -/
def objectPrototypeItself : JSVal := .foreign true "[object Object]"

/-- `o[key]` on a plain object `o` whose own properties hold strings: the own
property, else what `Object.prototype` gives. -/
def plainGet (h : Host) (o : List (String × String)) (key : String) : JSVal :=
  match objGet o key with
  | some s => .str s
  | none => if key == "__proto__" then objectPrototypeItself else h.objectPrototype key

/-- `o[key] = s` on a plain object `o`, for a string `s`: an own property is
defined, except that the inherited setter of `__proto__` ignores a string. -/
def plainSet (o : List (String × String)) (key s : String) : List (String × String) :=
  if key == "__proto__" && (objGet o key).isNone then o else objSet o key s

/-- What reading `TARGETS[directoryPath]` gives: one of the file maps, or any other
value. -/
inductive TargetVal where
  | fileMap (m : List (String × String))
  | val (v : JSVal)
deriving DecidableEq, Repr

/-- `TARGETS[key]` on the plain object `TARGETS`: its own property (for `__proto__`
the installed prototype), else the property of the installed prototype, itself a
plain object, else what `Object.prototype` gives. -/
def targetsGet (h : Host) (t : List (String × List (String × String))) (key : String) :
    TargetVal :=
  match objGet t key with
  | some m => .fileMap m
  | none => .val (plainGet h ((objGet t "__proto__").getD []) key)

/-- `chars.split(sep)` for a one-character separator, on lists of characters. -/
def splitChars (sep : Char) : List Char → List (List Char)
  | [] => [[]]
  | c :: cs =>
    if c = sep then [] :: splitChars sep cs
    else match splitChars sep cs with
      | [] => [[c]]
      | seg :: rest => (c :: seg) :: rest

/-- `file.split("/").pop()`. -/
def lastSegment (file : String) : String :=
  String.mk ((splitChars '/' file.data).getLastD [])

/-! ## `encodeURI` (ECMA-262, 19.2.6.5) -/

/-- The characters `encodeURI` leaves alone: `uriReserved`, `uriUnescaped` and `#`. -/
def uriKeep (c : Char) : Bool :=
  c.isAlphanum || ";/?:@&=+$,-_.!~*'()#".data.contains c

/-- One hexadecimal digit, upper case. -/
def hexDigit (n : Nat) : Char :=
  "0123456789ABCDEF".data.getD n '0'

/-- The UTF-8 octets of a code point. -/
def utf8Octets (n : Nat) : List Nat :=
  if n < 0x80 then [n]
  else if n < 0x800 then [0xC0 + n / 64, 0x80 + n % 64]
  else if n < 0x10000 then [0xE0 + n / 4096, 0x80 + n / 64 % 64, 0x80 + n % 64]
  else [0xF0 + n / 262144, 0x80 + n / 4096 % 64, 0x80 + n / 64 % 64, 0x80 + n % 64]

/-- The escape `%XX` of one octet. -/
def percentOctet (b : Nat) : List Char := ['%', hexDigit (b / 16), hexDigit (b % 16)]

/-- The encoding of one character. -/
def encodeChar (c : Char) : List Char :=
  if uriKeep c then [c] else (utf8Octets c.toNat).flatMap percentOctet

/-- `encodeURI(s)` on a well-formed string. -/
def encodeURI (s : String) : String := String.mk (s.data.flatMap encodeChar)

/-! ## `FileHelper` -/

/-- `FileHelper.fileExistsUpdate(fileList)`. -/
def fileExistsUpdate (fileList : List String) (k : Known) : Known :=
  let targetFiles := fileList.filter (fun f => !setHas k.FILES f)
  { k with FILES := targetFiles.foldl setAdd k.FILES }

/-- `FileHelper.dirExistsUpdate(dirList)`. -/
def dirExistsUpdate (dirList : List String) (k : Known) : Known :=
  let targetFiles := dirList.filter (fun f => !setHas k.DIRS f)
  { k with DIRS := targetFiles.foldl setAdd k.DIRS }

/-- The record of one more `browse` call. -/
def logBrowse (w : World) (dir : Dir) (threw : Bool) : World :=
  { w with browseLog := w.browseLog ++ [⟨dir.activeSource, dir.current, dir.bucket, threw⟩] }

/-- `await DirectoryPicker.browse(dir.activeSource, dir.current, {bucket: dir.bucket})`. -/
def callBrowse (h : Host) (dir : Dir) (w : World) : Except JSError Listing × World :=
  match h.browse w.browseLog.length dir.activeSource dir.current dir.bucket with
  | .error e => (.error e, logBrowse w dir true)
  | .ok fileList => (.ok fileList, logBrowse w dir false)

/-- `(ForgeAPI.lastStatus || (await ForgeAPI.status())).user`, rendered as text. -/
def forgeStatusUser (h : Host) (w : World) : Except JSError String × World :=
  match h.lastStatus w.statusCalls with
  | .error e => (.error e, w)
  | .ok (some user) => (.ok user, w)
  | .ok none => (h.status w.statusCalls, { w with statusCalls := w.statusCalls + 1 })

/-- `FileHelper.doesDirExist(directoryPath)`. The parse is outside the `try`. -/
def doesDirExist (h : Host) (directoryPath : String) (w : World) : Except JSError Bool × World :=
  match h.parse directoryPath with
  | .error e => (.error e, w)
  | .ok dir =>
    match callBrowse h dir w with
    | (.ok _, w1) => (.ok true, w1)
    | (.error _, w1) => (.ok false, w1)

/-- The body of the `forEach` over a bazaar listing, lines 81-83. -/
def bazaarStep (directoryPath : String) (k : Known) (file : String) : Known :=
  let fileName := lastSegment file
  let target := (objGet k.FORGE.TARGETS directoryPath).getD []
  { k with
    FORGE := { k.FORGE with
      TARGETS := objSet k.FORGE.TARGETS directoryPath (plainSet target fileName file) }
    FILES := setAdd k.FILES file }

/-- The bazaar branch, lines 79-84. -/
def bazaarTargets (directoryPath : String) (files : List String) (k : Known) : Known :=
  let k0 : Known :=
    { k with FORGE := { k.FORGE with TARGETS := objSet k.FORGE.TARGETS directoryPath [] } }
  files.foldl (bazaarStep directoryPath) k0

/-- `CONFIG.NOTELICKER.KNOWN.CHECKED_DIRS.add(directoryPath)`. -/
def markChecked (directoryPath : String) (k : Known) : Known :=
  { k with CHECKED_DIRS := setAdd k.CHECKED_DIRS directoryPath }

/-- `FileHelper.generateCurrentFiles(directoryPath)`. -/
def generateCurrentFiles (h : Host) (directoryPath : String) (w : World) :
    Except JSError Unit × World :=
  if setHas w.known.CHECKED_DIRS directoryPath then (.ok (), w)
  else
    match h.parse directoryPath with
    | .error e => (.error e, w)
    | .ok dir =>
      match callBrowse h dir w with
      | (.error e, w1) => (.error e, w1)
      | (.ok fileList, w1) =>
        let k1 := dirExistsUpdate fileList.dirs (fileExistsUpdate fileList.files w1.known)
        if h.usingTheForge then
          if fileList.bazaar then
            let k2 := bazaarTargets directoryPath fileList.files k1
            (.ok (), { w1 with known := markChecked directoryPath k2 })
          else
            match forgeStatusUser h { w1 with known := k1 } with
            | (.error e, w2) => (.error e, w2)
            | (.ok userId, w2) =>
              let prefixUrl := "https://assets.forge-vtt.com/" ++ userId ++ "/" ++ dir.current
              let k2 : Known :=
                { w2.known with FORGE := { w2.known.FORGE with
                    TARGET_URL_PREFIX :=
                      plainSet w2.known.FORGE.TARGET_URL_PREFIX directoryPath prefixUrl } }
              (.ok (), { w2 with known := markChecked directoryPath k2 })
        else
          (.ok (), { w1 with known := markChecked directoryPath k1 })

/-- `bazaarTargetPath ? bazaarTargetPath[filename] : undefined`, line 148. -/
def bazaarTargetOf (h : Host) (bazaarTargetPath : TargetVal) (filename : String) :
    Except JSError JSVal :=
  match bazaarTargetPath with
  | .fileMap m => .ok (plainGet h m filename)
  | .val v => if truthy v then h.memberOf v filename else .ok .undefined

/-- `FileHelper.getForgeUrl(directoryPath, filename)`. -/
def getForgeUrl (h : Host) (directoryPath filename : String) (w : World) :
    Except JSError JSVal × World :=
  let scanned : Except JSError Unit × World :=
    if !setHas w.known.CHECKED_DIRS directoryPath then generateCurrentFiles h directoryPath w
    else (.ok (), w)
  match scanned with
  | (.error e, w1) => (.error e, w1)
  | (.ok _, w1) =>
    let pfx := plainGet h w1.known.FORGE.TARGET_URL_PREFIX directoryPath
    let bazaarTargetPath := targetsGet h w1.known.FORGE.TARGETS directoryPath
    match bazaarTargetOf h bazaarTargetPath filename with
    | .error e => (.error e, w1)
    | .ok bazaarTarget =>
      if truthy bazaarTarget then (.ok bazaarTarget, w1)
      else if truthy pfx then (.ok (.str (jsToString pfx ++ "/" ++ filename)), w1)
      else
        match h.parse directoryPath with
        | .error e => (.error e, w1)
        | .ok dir =>
          if dir.activeSource == "data" then
            (.ok (.str ("https://assets.forge-vtt.com/bazaar/" ++ dir.current ++ "/"
              ++ filename)), w1)
          else if dir.activeSource == "forgevtt" then
            match forgeStatusUser h w1 with
            | (.error e, w2) => (.error e, w2)
            | (.ok userId, w2) =>
              (.ok (.str ("https://assets.forge-vtt.com/" ++ userId ++ "/" ++ dir.current ++ "/"
                ++ filename)), w2)
          else (.ok .undefined, w1)

/-- How control leaves the `try` block of `getFileUrl` when nothing is thrown:
by the `return uri` of line 173, or by reaching its end with `uri` as assigned. -/
inductive TryExit where
  | returned (uri : JSVal)
  | fellThrough (uri : JSVal)
deriving DecidableEq, Repr

/-- The `try` block of `getFileUrl`, lines 171-189. -/
def getFileUrlTry (h : Host) (directoryPath filename : String) (w : World) :
    Except JSError TryExit × World :=
  if h.usingTheForge then
    match getForgeUrl h directoryPath filename w with
    | (.error e, w1) => (.error e, w1)
    | (.ok uri, w1) => (.ok (.returned uri), w1)
  else
    match h.parse directoryPath with
    | .error e => (.error e, w)
    | .ok dir =>
      if dir.activeSource == "data" then
        (.ok (.fellThrough (.str (dir.current ++ "/" ++ filename))), w)
      else if dir.activeSource == "forgevtt" then
        match forgeStatusUser h w with
        | (.error e, w1) => (.error e, w1)
        | (.ok userId, w1) =>
          (.ok (.fellThrough (.str ("https://assets.forge-vtt.com/" ++ userId ++ "/"
            ++ dir.current ++ "/" ++ filename))), w1)
      else if dir.activeSource == "s3" then
        match h.s3hostname with
        | .error e => (.error e, w)
        | .ok hostname =>
          (.ok (.fellThrough (.str ("https://" ++ dir.bucket ++ "." ++ hostname ++ "/"
            ++ dir.current ++ "/" ++ filename))), w)
      else
        (.ok (.fellThrough .undefined), w)

/-- The error thrown by the `catch` of `getFileUrl`, lines 191-193. -/
def resolutionError (directoryPath filename : String) : JSError :=
  { name := "Error"
    message := "Unable to determine file URL for directoryPath\"" ++ directoryPath
      ++ "\" and filename\"" ++ filename ++ "\"" }

/-- `FileHelper.getFileUrl(directoryPath, filename)`. -/
def getFileUrl (h : Host) (directoryPath filename : String) (w : World) :
    Except JSError JSVal × World :=
  match getFileUrlTry h directoryPath filename w with
  | (.error _, w1) => (.error (resolutionError directoryPath filename), w1)
  | (.ok (.returned uri), w1) => (.ok uri, w1)
  | (.ok (.fellThrough uri), w1) => (.ok (.str (encodeURI (jsToString uri))), w1)

/-- `FileHelper.fileExists(directoryPath, filename)`. -/
def fileExists (h : Host) (directoryPath filename : String) (w : World) :
    Except JSError Bool × World :=
  match getFileUrl h directoryPath filename w with
  | (.error e, w1) => (.error e, w1)
  | (.ok fileUrl, w1) =>
    if setHasVal w1.known.FILES fileUrl then (.ok true, w1)
    else
      match generateCurrentFiles h directoryPath w1 with
      | (.error e, w2) => (.error e, w2)
      | (.ok _, w2) => (.ok (setHasVal w2.known.FILES fileUrl), w2)


/-! ## Observing runs -/

/-- The `browse` calls recorded in `w'` since `w`. -/
def browseCallsSince (w w' : World) : List BrowseCall :=
  w'.browseLog.drop w.browseLog.length

/-- A call of one of the cache operations of `FileHelper`, with its arguments. -/
inductive Op where
  | fileExistsUpdate (fileList : List String)
  | dirExistsUpdate (dirList : List String)
  | doesDirExist (directoryPath : String)
  | generateCurrentFiles (directoryPath : String)
  | getForgeUrl (directoryPath filename : String)
  | getFileUrl (directoryPath filename : String)
  | fileExists (directoryPath filename : String)
deriving DecidableEq, Repr

/-- The state an operation leaves behind, whether it returns or throws. -/
def Op.run (h : Host) : Op → World → World
  | .fileExistsUpdate fileList, w => { w with known := NoteLicker.fileExistsUpdate fileList w.known }
  | .dirExistsUpdate dirList, w => { w with known := NoteLicker.dirExistsUpdate dirList w.known }
  | .doesDirExist d, w => (NoteLicker.doesDirExist h d w).2
  | .generateCurrentFiles d, w => (NoteLicker.generateCurrentFiles h d w).2
  | .getForgeUrl d f, w => (NoteLicker.getForgeUrl h d f w).2
  | .getFileUrl d f, w => (NoteLicker.getFileUrl h d f w).2
  | .fileExists d f, w => (NoteLicker.fileExists h d f w).2

/-- The state after a sequence of operations, run one after the other. -/
def runOps (h : Host) (ops : List Op) (w : World) : World :=
  ops.foldl (fun acc op => op.run h acc) w

/-! ## Concrete hosts and states used as examples -/

/-- The built-in function `name`, rendered as V8 renders a native function. -/
def nativeFunction (name : String) : JSVal :=
  .foreign true ("function " ++ name ++ "() \x7b [native code] \x7d")

/-- The members of `Object.prototype` other than `__proto__` (ECMA-262, 20.1.3 and
B.2.2): all of them built-in functions, `constructor` being `Object`. -/
def standardObjectPrototype (key : String) : JSVal :=
  if key == "constructor" then nativeFunction "Object"
  else if ["hasOwnProperty", "isPrototypeOf", "propertyIsEnumerable", "toLocaleString",
      "toString", "valueOf", "__defineGetter__", "__defineSetter__", "__lookupGetter__",
      "__lookupSetter__"].contains key then nativeFunction key
  else .undefined

/-- The members of other values that the examples below read: `Object.name` is
`"Object"` (ECMA-262, 20.1.2); no example reads another member. -/
def standardMemberOf (v : JSVal) (key : String) : Except JSError JSVal :=
  if v == nativeFunction "Object" && key == "name" then .ok (.str "Object") else .ok .undefined

/-- A host that answers every call the same way: every reference parses to `dir`,
every `browse` has the outcome `listing`, no identity is remembered and every
identity lookup has the outcome `user`; the bucket endpoint is `s3.example.com`;
`Object.prototype` is the standard one. -/
def staticHost (forge : Bool) (dir : Except JSError Dir) (listing : Except JSError Listing)
    (user : Except JSError String) : Host where
  usingTheForge := forge
  parse := fun _ => dir
  browse := fun _ _ _ _ => listing
  lastStatus := fun _ => .ok none
  status := fun _ => user
  s3hostname := .ok "s3.example.com"
  objectPrototype := standardObjectPrototype
  memberOf := standardMemberOf

/-- All caches empty, no external call made yet. -/
def emptyWorld : World :=
  { known := { FILES := [], DIRS := [], CHECKED_DIRS := [],
               FORGE := { TARGETS := [], TARGET_URL_PREFIX := [] } }
    browseLog := []
    statusCalls := 0 }

/-- Caches that know one Forge asset URL and have scanned nothing. -/
def oneFileWorld : World :=
  { emptyWorld with
    known := { emptyWorld.known with FILES := ["https://assets.forge-vtt.com/u1/images/a.png"] } }

/-- An empty listing that is not a bazaar one. -/
def emptyListing : Listing := { files := [], dirs := [], bazaar := false }

/-- A listing error, as thrown by `browse` on an inaccessible path. -/
def listingError : JSError := { name := "Error", message := "EACCES: permission denied" }

/-- A host, on the Forge or off it, whose references parse to the local source at
`images`, whose listings are empty and not bazaar ones, and whose identity lookup
answers `u1`. -/
def localHost (forge : Bool) : Host :=
  staticHost forge (.ok ⟨"data", "images", ""⟩) (.ok emptyListing) (.ok "u1")

/-- A host whose references parse to the bucket `myassets` at `maps`. -/
def bucketHost (forge : Bool) : Host :=
  staticHost forge (.ok ⟨"s3", "maps", "myassets"⟩) (.ok emptyListing) (.ok "u1")

/-- A host off the Forge whose references parse to the local source at `images`
and whose every `browse` throws `listingError`. -/
def failingBrowseHost : Host :=
  staticHost false (.ok ⟨"data", "images", ""⟩) (.error listingError) (.ok "u1")

/-- Caches that know the one file `images/a%20b.png`. -/
def localFileWorld : World :=
  { emptyWorld with known := { emptyWorld.known with FILES := ["images/a%20b.png"] } }

/-- The state `localHost` reaches from `emptyWorld` by scanning `images`. -/
def scannedImagesWorld : World :=
  { known := { emptyWorld.known with CHECKED_DIRS := ["images"] }
    browseLog := [⟨"data", "images", "", false⟩]
    statusCalls := 0 }

/-- The log of `w'` extends the log of `w`, and when `good` holds none of the added
`browse` calls threw. -/
def LogExtends (w w' : World) (good : Prop) : Prop :=
  ∃ added, w'.browseLog = w.browseLog ++ added ∧ (good → ∀ c ∈ added, c.threw = false)

/-- The caches `k'` hold `KNOWN.FILES` and `KNOWN.DIRS` of `k` as initial segments:
entries were only ever added. -/
def Grows (k k' : Known) : Prop :=
  k.FILES <+: k'.FILES ∧ k.DIRS <+: k'.DIRS

/-- A host whose references parse to the source `public`, which is
none of `data`, `forgevtt` and `s3`. -/
def publicHost (forge : Bool) : Host :=
  staticHost forge (.ok ⟨"public", "icons", ""⟩) (.ok emptyListing) (.ok "u1")

/-- The error `DirectoryPicker.parse` throws on a value that is not a string. -/
def parseError : JSError := { name := "TypeError", message := "str.match is not a function" }

/-- A host off the Forge on which no reference parses. -/
def unparsableHost : Host :=
  staticHost false (.error parseError) (.ok emptyListing) (.ok "u1")


/-! ## `removeFileExtension` -/

/-- `parts.join(sep)` for a one-character separator, on lists of characters. -/
def joinChars (sep : Char) : List (List Char) → List Char
  | [] => []
  | [p] => p
  | p :: q :: rest => p ++ sep :: joinChars sep (q :: rest)

/-- `FileHelper.removeFileExtension(name)`: split at the dots, pop the last part,
join the rest with dots. -/
def removeFileExtension (name : String) : String :=
  let nameArray := splitChars '.' name.data
  String.mk (joinChars '.' nameArray.dropLast)

/-! ## The Forge dictionaries and `CHECKED_DIRS` -/

/-- The Forge dictionaries agree with `CHECKED_DIRS`: a directory reference with a
URL prefix has a non-empty one, is checked, has no file map and was recorded on the
Forge; a directory reference with a file map is checked. -/
def ForgeInv (forge : Bool) (k : Known) : Prop :=
  ∀ d : String,
    (∀ p, objGet k.FORGE.TARGET_URL_PREFIX d = some p →
      p ≠ "" ∧ setHas k.CHECKED_DIRS d = true ∧ objGet k.FORGE.TARGETS d = none ∧
        forge = true) ∧
    (∀ m, objGet k.FORGE.TARGETS d = some m → setHas k.CHECKED_DIRS d = true)

/-- The file map a bazaar listing leaves in `FORGE.TARGETS[directoryPath]`, built
entry by entry as the `forEach` of lines 80-84 does, starting from the map `m`. -/
def bazaarMap (files : List String) (m : List (String × String)) : List (String × String) :=
  files.foldl (fun acc file => plainSet acc (lastSegment file) file) m

/-- A Forge host whose references parse to the local source at `modules` and whose
listing is a bazaar one with two files named `a.png` and one named `b.png`. -/
def bazaarHost : Host :=
  staticHost true (.ok ⟨"data", "modules", ""⟩)
    (.ok ⟨["modules/pack/a.png", "modules/other/a.png", "modules/pack/b.png"], [], true⟩)
    (.ok "u1")

/-- A Forge host whose references parse to the local source at `modules` and whose
listing is a bazaar one holding a file named `__proto__` and a file named `a.png`. -/
def protoNameHost : Host :=
  staticHost true (.ok ⟨"data", "modules", ""⟩)
    (.ok ⟨["modules/pack/__proto__", "modules/pack/a.png"], [], true⟩) (.ok "u1")

/-- A Forge host whose references parse to the source `source` at `icons` and whose
listing is a bazaar one holding the single file `icons/b.png`. -/
def bazaarSourceHost (source : String) : Host :=
  staticHost true (.ok ⟨source, "icons", ""⟩) (.ok ⟨["icons/b.png"], [], true⟩) (.ok "u1")

/-- The state of the identity lookup for `d` on the Forge when every listing is a
standard one: `TARGETS` is empty; once `d` is checked, reading
`TARGET_URL_PREFIX[d]` gives a truthy value; while `d` is unchecked no lookup has
been made; at most one lookup has been made. -/
def IdentityOnce (h : Host) (d : String) (w : World) : Prop :=
  w.known.FORGE.TARGETS = [] ∧
    (setHas w.known.CHECKED_DIRS d = true →
      truthy (plainGet h w.known.FORGE.TARGET_URL_PREFIX d) = true) ∧
    (setHas w.known.CHECKED_DIRS d = false → w.statusCalls = 0) ∧
    w.statusCalls ≤ 1

/-- A Forge host whose references parse to the `forgevtt` source at `icons`, whose
listings are standard and empty, and whose identity lookup answers `u1`. -/
def forgeProxyHost : Host :=
  staticHost true (.ok ⟨"forgevtt", "icons", ""⟩) (.ok emptyListing) (.ok "u1")

/-- A Forge host for a `forgevtt` reference with standard listings, on which no
identity is remembered, the first identity lookup fails and the later ones answer
`u1`. -/
def retryHost : Host where
  usingTheForge := true
  parse := fun _ => .ok ⟨"forgevtt", "icons", ""⟩
  browse := fun _ _ _ _ => .ok emptyListing
  lastStatus := fun _ => .ok none
  status := fun n => if n = 0 then .error ⟨"Error", "Failed to fetch"⟩ else .ok "u1"
  s3hostname := .ok "s3.example.com"
  objectPrototype := standardObjectPrototype
  memberOf := standardMemberOf

/-- A host off the Forge for a `forgevtt` reference, on which `ForgeAPI` never
remembers a status and every identity lookup answers `u1`. -/
def forgetfulHost : Host :=
  staticHost false (.ok ⟨"forgevtt", "icons", ""⟩) (.ok emptyListing) (.ok "u1")
/-! ## Frame lemmas -/

theorem forgeStatusUser_known (h : Host) (w : World) :
    (forgeStatusUser h w).2.known = w.known ∧ (forgeStatusUser h w).2.browseLog = w.browseLog := by
  unfold forgeStatusUser
  split <;> simp

theorem getFileUrlTry_offForge_frame (h : Host) (d f : String) (w : World)
    (hf : h.usingTheForge = false) :
    (getFileUrlTry h d f w).2.known = w.known ∧
      (getFileUrlTry h d f w).2.browseLog = w.browseLog := by
  unfold getFileUrlTry
  simp only [hf, Bool.false_eq_true, if_false]
  split
  · simp
  · split
    · simp
    · split
      · have := forgeStatusUser_known h w
        split <;> simp_all
      · split
        · split <;> simp
        · simp

theorem getForgeUrl_snd_cases (h : Host) (d f : String) (w w1 : World)
    (hscan : (if !setHas w.known.CHECKED_DIRS d then generateCurrentFiles h d w
      else (.ok (), w)) = (.ok (), w1)) :
    (getForgeUrl h d f w).2 = w1 ∨ (getForgeUrl h d f w).2 = (forgeStatusUser h w1).2 := by
  unfold getForgeUrl
  simp only [hscan]
  split
  · exact Or.inl rfl
  · split
    · exact Or.inl rfl
    · split
      · exact Or.inl rfl
      · split
        · exact Or.inl rfl
        · split
          · exact Or.inl rfl
          · split
            · right
              split <;> (rename_i heq; rw [heq])
            · exact Or.inl rfl

theorem getForgeUrl_scan_failed (h : Host) (d f : String) (w w1 : World) (e : JSError)
    (hscan : (if !setHas w.known.CHECKED_DIRS d then generateCurrentFiles h d w
      else (.ok (), w)) = (.error e, w1)) :
    getForgeUrl h d f w = (.error e, w1) := by
  unfold getForgeUrl
  simp only [hscan]

theorem getForgeUrl_checked_frame (h : Host) (d f : String) (w : World)
    (hc : setHas w.known.CHECKED_DIRS d = true) :
    (getForgeUrl h d f w).2.known = w.known ∧
      (getForgeUrl h d f w).2.browseLog = w.browseLog := by
  have hscan : (if !setHas w.known.CHECKED_DIRS d then generateCurrentFiles h d w
      else (.ok (), w)) = (.ok (), w) := by
    simp [hc]
  rcases getForgeUrl_snd_cases h d f w w hscan with hk | hk
  · rw [hk]
    exact ⟨rfl, rfl⟩
  · rw [hk]
    exact forgeStatusUser_known h w

theorem getFileUrl_snd (h : Host) (d f : String) (w : World) :
    (getFileUrl h d f w).2 = (getFileUrlTry h d f w).2 := by
  unfold getFileUrl
  split <;> simp_all

theorem getFileUrl_frame (h : Host) (d f : String) (w : World)
    (hs : h.usingTheForge = false ∨ setHas w.known.CHECKED_DIRS d = true) :
    (getFileUrl h d f w).2.known = w.known ∧ (getFileUrl h d f w).2.browseLog = w.browseLog := by
  rw [getFileUrl_snd]
  cases hu : h.usingTheForge with
  | false => exact getFileUrlTry_offForge_frame h d f w hu
  | true =>
    have hc : setHas w.known.CHECKED_DIRS d = true := by
      rcases hs with hs | hs
      · simp [hu] at hs
      · exact hs
    have := getForgeUrl_checked_frame h d f w hc
    unfold getFileUrlTry
    simp only [hu, if_true]
    split <;> simp_all

/-! ## C1: the cache-hit fast path of `fileExists` -/

/-- C1, as stated, fails on the Forge: with `d` not yet in `CHECKED_DIRS`, the URL
`getFileUrl` resolves to is in `KNOWN.FILES` before and after the call and
`fileExists` returns `true`, yet `browse` has been invoked once, by the scan that
`getForgeUrl` starts. -/
theorem fileExists_cache_hit_browses_on_forge :
    (getFileUrl (localHost true) "images" "a.png" oneFileWorld).1
      = .ok (.str "https://assets.forge-vtt.com/u1/images/a.png") ∧
    setHas oneFileWorld.known.FILES "https://assets.forge-vtt.com/u1/images/a.png" = true ∧
    setHas oneFileWorld.known.CHECKED_DIRS "images" = false ∧
    (fileExists (localHost true) "images" "a.png" oneFileWorld).1 = .ok true ∧
    browseCallsSince oneFileWorld (fileExists (localHost true) "images" "a.png" oneFileWorld).2
      = [⟨"data", "images", "", false⟩] := by
  refine ⟨?_, ?_, ?_, ?_, ?_⟩ <;> rfl

/-- C1, amended: when the Forge host is not active, or `d` is already in
`CHECKED_DIRS`, and the URL `getFileUrl(d, f)` resolves to is in `KNOWN.FILES`,
then `fileExists(d, f)` returns `true`, invokes `browse` not at all and leaves
every cache as it was. -/
theorem fileExists_cache_hit (h : Host) (d f : String) (w : World) (u : JSVal)
    (hs : h.usingTheForge = false ∨ setHas w.known.CHECKED_DIRS d = true)
    (hu : (getFileUrl h d f w).1 = .ok u)
    (hin : setHasVal w.known.FILES u = true) :
    (fileExists h d f w).1 = .ok true ∧
      browseCallsSince w (fileExists h d f w).2 = [] ∧
      (fileExists h d f w).2.known = w.known := by
  obtain ⟨hk, hl⟩ := getFileUrl_frame h d f w hs
  have hfe : fileExists h d f w = (.ok true, (getFileUrl h d f w).2) := by
    unfold fileExists
    split
    · simp_all
    · rename_i fileUrl w1 heq
      rw [heq] at hu hk
      simp only [Except.ok.injEq] at hu
      subst hu
      simp only at hk
      simp [hk, hin, heq]
  rw [hfe]
  refine ⟨rfl, ?_, hk⟩
  simp [browseCallsSince, hl]

/-- The instance of `fileExists_cache_hit` at a local file that is cached, off the
Forge, with its directory not yet scanned. -/
theorem fileExists_cache_hit_witness :
    (fileExists (localHost false) "images" "a b.png" localFileWorld).1 = .ok true ∧
      browseCallsSince localFileWorld
        (fileExists (localHost false) "images" "a b.png" localFileWorld).2 = [] ∧
      (fileExists (localHost false) "images" "a b.png" localFileWorld).2.known
        = localFileWorld.known :=
  fileExists_cache_hit (localHost false) "images" "a b.png" localFileWorld
    (.str "images/a%20b.png") (Or.inl rfl) rfl rfl

/-! ## C2, C3: the URL of a local and of a bucket reference -/

/-- C2, as stated, fails on the Forge: for a reference that parses to the local
source with current path `images`, `getFileUrl` returns what `getForgeUrl`
resolves, here the unencoded Forge prefix URL, not `encodeURI("images/a b.png")`. -/
theorem getFileUrl_local_on_forge :
    (localHost true).parse "images" = .ok ⟨"data", "images", ""⟩ ∧
    (getFileUrl (localHost true) "images" "a b.png" emptyWorld).1
      = .ok (.str "https://assets.forge-vtt.com/u1/images/a b.png") ∧
    encodeURI ("images" ++ "/" ++ "a b.png") = "images/a%20b.png" := by
  refine ⟨?_, ?_, ?_⟩ <;> rfl

/-- C2, amended: when the Forge host is not active, for every directory reference
`d` that parses to the local source (`activeSource` `"data"`) with current path `p`
and every filename `f`, `getFileUrl(d, f)` returns `encodeURI(p + "/" + f)` and
changes nothing; for `p = "images"` and `f = "a b.png"` that is `"images/a%20b.png"`. -/
theorem getFileUrl_local (h : Host) (d f : String) (w : World) (dir : Dir)
    (hf : h.usingTheForge = false) (hp : h.parse d = .ok dir)
    (hsrc : dir.activeSource = "data") :
    getFileUrl h d f w = (.ok (.str (encodeURI (dir.current ++ "/" ++ f))), w) ∧
      (dir.current = "images" → f = "a b.png" →
        getFileUrl h d f w = (.ok (.str "images/a%20b.png"), w)) := by
  have key : getFileUrl h d f w = (.ok (.str (encodeURI (dir.current ++ "/" ++ f))), w) := by
    simp [getFileUrl, getFileUrlTry, hf, hp, hsrc, jsToString]
  refine ⟨key, ?_⟩
  intro hc hn
  rw [key, hc, hn]
  rfl

/-- The instance of `getFileUrl_local` at the local reference `images` and the file
`a b.png`. -/
theorem getFileUrl_local_witness :
    getFileUrl (localHost false)
        "images" "a b.png" emptyWorld
      = (.ok (.str "images/a%20b.png"), emptyWorld) :=
  (getFileUrl_local (localHost false)
    "images" "a b.png" emptyWorld ⟨"data", "images", ""⟩ rfl rfl rfl).2 rfl rfl

/-- C3, as stated, fails on the Forge: for a reference that parses to the bucket
source, `getFileUrl` returns what `getForgeUrl` resolves, here the Forge prefix
URL, not the bucket URL. -/
theorem getFileUrl_bucket_on_forge :
    (bucketHost true).parse "[s3:myassets] maps" = .ok ⟨"s3", "maps", "myassets"⟩ ∧
    (getFileUrl (bucketHost true)
        "[s3:myassets] maps" "town.jpg" emptyWorld).1
      = .ok (.str "https://assets.forge-vtt.com/u1/maps/town.jpg") ∧
    (bucketHost true).s3hostname = .ok "s3.example.com" ∧
    encodeURI ("https://" ++ "myassets" ++ "." ++ "s3.example.com" ++ "/" ++ "maps" ++ "/"
        ++ "town.jpg")
      = "https://myassets.s3.example.com/maps/town.jpg" := by
  refine ⟨?_, ?_, ?_, ?_⟩ <;> rfl

/-- C3, amended: when the Forge host is not active, for every directory reference
`d` that parses to the bucket source (`activeSource` `"s3"`) with bucket `b` and
current path `p`, every configured endpoint host `hn` and every filename `f`,
`getFileUrl(d, f)` returns `encodeURI("https://" + b + "." + hn + "/" + p + "/" + f)`
and changes nothing; for `b = "myassets"`, `hn = "s3.example.com"`, `p = "maps"`,
`f = "town.jpg"` that is `"https://myassets.s3.example.com/maps/town.jpg"`. -/
theorem getFileUrl_bucket (h : Host) (d f : String) (w : World) (dir : Dir) (hn : String)
    (hf : h.usingTheForge = false) (hp : h.parse d = .ok dir)
    (hsrc : dir.activeSource = "s3") (hh : h.s3hostname = .ok hn) :
    getFileUrl h d f w
        = (.ok (.str (encodeURI ("https://" ++ dir.bucket ++ "." ++ hn ++ "/" ++ dir.current
            ++ "/" ++ f))), w) ∧
      (dir.bucket = "myassets" → hn = "s3.example.com" → dir.current = "maps" →
        f = "town.jpg" →
        getFileUrl h d f w = (.ok (.str "https://myassets.s3.example.com/maps/town.jpg"), w)) := by
  have key : getFileUrl h d f w
      = (.ok (.str (encodeURI ("https://" ++ dir.bucket ++ "." ++ hn ++ "/" ++ dir.current
          ++ "/" ++ f))), w) := by
    have h1 : ("s3" == "data") = false := by decide
    have h2 : ("s3" == "forgevtt") = false := by decide
    simp [getFileUrl, getFileUrlTry, hf, hp, hsrc, hh, jsToString, h1, h2]
  refine ⟨key, ?_⟩
  intro hb hhn hc hfn
  rw [key, hb, hhn, hc, hfn]
  rfl

/-- The instance of `getFileUrl_bucket` at bucket `myassets`, path `maps`, file
`town.jpg` and endpoint `s3.example.com`. -/
theorem getFileUrl_bucket_witness :
    getFileUrl (bucketHost false)
        "[s3:myassets] maps" "town.jpg" emptyWorld
      = (.ok (.str "https://myassets.s3.example.com/maps/town.jpg"), emptyWorld) :=
  (getFileUrl_bucket (bucketHost false)
    "[s3:myassets] maps" "town.jpg" emptyWorld ⟨"s3", "maps", "myassets"⟩ "s3.example.com"
    rfl rfl rfl rfl).2 rfl rfl rfl rfl

/-! ## Scans: `generateCurrentFiles` -/

theorem setHas_setAdd (s : List String) (x : String) : setHas (setAdd s x) x = true := by
  unfold setAdd
  split
  · assumption
  · simp [setHas]

theorem callBrowse_log (h : Host) (dir : Dir) (w : World) :
    ∃ threw, (callBrowse h dir w).2 = logBrowse w dir threw ∧
      (threw = true ↔ ∃ e, (callBrowse h dir w).1 = .error e) := by
  unfold callBrowse
  split
  · exact ⟨true, rfl, by simp⟩
  · exact ⟨false, rfl, by simp⟩

theorem generateCurrentFiles_checked (h : Host) (d : String) (w : World)
    (hc : setHas w.known.CHECKED_DIRS d = true) :
    generateCurrentFiles h d w = (.ok (), w) := by
  simp [generateCurrentFiles, hc]

theorem generateCurrentFiles_ok_checked (h : Host) (d : String) (w w1 : World)
    (hok : generateCurrentFiles h d w = (.ok (), w1)) :
    setHas w1.known.CHECKED_DIRS d = true := by
  unfold generateCurrentFiles at hok
  split at hok
  · simp only [Prod.mk.injEq, true_and] at hok
    subst hok
    assumption
  · split at hok
    · simp at hok
    · split at hok
      · simp at hok
      · split at hok
        · split at hok
          · simp only [Prod.mk.injEq, true_and] at hok
            subst hok
            simp [markChecked, setHas_setAdd]
          · dsimp only at hok
            split at hok
            · simp at hok
            · simp only [Prod.mk.injEq, true_and] at hok
              subst hok
              simp [markChecked, setHas_setAdd]
        · simp only [Prod.mk.injEq, true_and] at hok
          subst hok
          simp [markChecked, setHas_setAdd]

theorem generateCurrentFiles_unchecked_log (h : Host) (d : String) (w : World) (dir : Dir)
    (hun : setHas w.known.CHECKED_DIRS d = false) (hp : h.parse d = .ok dir) :
    (generateCurrentFiles h d w).2.browseLog = (callBrowse h dir w).2.browseLog := by
  unfold generateCurrentFiles
  simp only [hun, Bool.false_eq_true, if_false, hp]
  split
  · simp_all
  · rename_i fileList w1 heq
    simp only [heq]
    split
    · split
      · rfl
      · have := forgeStatusUser_known h (World.mk
          (dirExistsUpdate fileList.dirs (fileExistsUpdate fileList.files w1.known))
          w1.browseLog w1.statusCalls)
        split <;> simp_all
    · rfl

/-- C4: if `generateCurrentFiles(d)` completes successfully, `d` is in
`CHECKED_DIRS`, and an immediately following `generateCurrentFiles(d)` succeeds
without invoking `browse` and leaves every cache unchanged (it returns the very
state it was given); starting from `d` unscanned, the two calls together invoke
`browse` exactly once. -/
theorem generateCurrentFiles_scan_idempotent (h : Host) (d : String) (w w1 : World)
    (hok : generateCurrentFiles h d w = (.ok (), w1)) :
    setHas w1.known.CHECKED_DIRS d = true ∧
      generateCurrentFiles h d w1 = (.ok (), w1) ∧
      browseCallsSince w1 (generateCurrentFiles h d w1).2 = [] ∧
      (generateCurrentFiles h d w1).2.known = w1.known ∧
      (setHas w.known.CHECKED_DIRS d = false →
        (browseCallsSince w (generateCurrentFiles h d w1).2).length = 1) := by
  have hc := generateCurrentFiles_ok_checked h d w w1 hok
  have h2 := generateCurrentFiles_checked h d w1 hc
  refine ⟨hc, h2, ?_, ?_, ?_⟩
  · simp [h2, browseCallsSince]
  · simp [h2]
  · intro hun
    rw [h2]
    cases hp : h.parse d with
    | error e =>
      simp [generateCurrentFiles, hun, hp] at hok
    | ok dir =>
      have hl := generateCurrentFiles_unchecked_log h d w dir hun hp
      rw [hok] at hl
      obtain ⟨threw, hcb, -⟩ := callBrowse_log h dir w
      simp only at hl
      simp [browseCallsSince, hl, hcb, logBrowse]

/-- The instance of `generateCurrentFiles_scan_idempotent` at a local directory
with an empty listing, starting from empty caches. -/
theorem generateCurrentFiles_scan_idempotent_witness :
    generateCurrentFiles (localHost false) "images" emptyWorld = (.ok (), scannedImagesWorld) ∧
      setHas scannedImagesWorld.known.CHECKED_DIRS "images" = true ∧
      generateCurrentFiles (localHost false) "images" scannedImagesWorld = (.ok (), scannedImagesWorld) ∧
      browseCallsSince scannedImagesWorld
          (generateCurrentFiles (localHost false) "images" scannedImagesWorld).2 = [] ∧
      (generateCurrentFiles (localHost false) "images" scannedImagesWorld).2.known
        = scannedImagesWorld.known ∧
      (setHas emptyWorld.known.CHECKED_DIRS "images" = false →
        (browseCallsSince emptyWorld
          (generateCurrentFiles (localHost false) "images" scannedImagesWorld).2).length = 1) :=
  ⟨rfl, generateCurrentFiles_scan_idempotent (localHost false) "images" emptyWorld scannedImagesWorld rfl⟩

/-- C5: for `d` not in `CHECKED_DIRS`, if the `browse` call of
`generateCurrentFiles(d)` throws `e`, the call fails with `e`, `d` is still not in
`CHECKED_DIRS`, every cache (so `KNOWN.FILES` and `KNOWN.DIRS`) is as before, the
failed `browse` is the one call recorded, and the next `generateCurrentFiles(d)`
invokes `browse` again. -/
theorem generateCurrentFiles_retry_after_failure (h : Host) (d : String) (w : World)
    (dir : Dir) (e : JSError)
    (hun : setHas w.known.CHECKED_DIRS d = false) (hp : h.parse d = .ok dir)
    (hb : h.browse w.browseLog.length dir.activeSource dir.current dir.bucket = .error e) :
    (generateCurrentFiles h d w).1 = .error e ∧
      setHas (generateCurrentFiles h d w).2.known.CHECKED_DIRS d = false ∧
      (generateCurrentFiles h d w).2.known = w.known ∧
      browseCallsSince w (generateCurrentFiles h d w).2
        = [⟨dir.activeSource, dir.current, dir.bucket, true⟩] ∧
      (browseCallsSince (generateCurrentFiles h d w).2
        (generateCurrentFiles h d (generateCurrentFiles h d w).2).2).length = 1 := by
  have h1 : generateCurrentFiles h d w = (.error e, logBrowse w dir true) := by
    simp [generateCurrentFiles, hun, hp, callBrowse, hb]
  rw [h1]
  refine ⟨rfl, hun, rfl, by simp [browseCallsSince, logBrowse], ?_⟩
  have hun2 : setHas (logBrowse w dir true).known.CHECKED_DIRS d = false := hun
  have hl := generateCurrentFiles_unchecked_log h d (logBrowse w dir true) dir hun2 hp
  obtain ⟨threw, hcb, -⟩ := callBrowse_log h dir (logBrowse w dir true)
  simp only [browseCallsSince, hl, hcb]
  simp [logBrowse]

/-- The instance of `generateCurrentFiles_retry_after_failure` at a host whose
`browse` throws, starting from empty caches. -/
theorem generateCurrentFiles_retry_after_failure_witness :
    (generateCurrentFiles failingBrowseHost "images" emptyWorld).1 = .error listingError ∧
      setHas (generateCurrentFiles failingBrowseHost "images" emptyWorld).2.known.CHECKED_DIRS
        "images" = false ∧
      (generateCurrentFiles failingBrowseHost "images" emptyWorld).2.known = emptyWorld.known ∧
      browseCallsSince emptyWorld (generateCurrentFiles failingBrowseHost "images" emptyWorld).2
        = [⟨"data", "images", "", true⟩] ∧
      (browseCallsSince (generateCurrentFiles failingBrowseHost "images" emptyWorld).2
        (generateCurrentFiles failingBrowseHost "images"
          (generateCurrentFiles failingBrowseHost "images" emptyWorld).2).2).length = 1 :=
  generateCurrentFiles_retry_after_failure failingBrowseHost "images" emptyWorld
    ⟨"data", "images", ""⟩ listingError rfl rfl rfl

/-! ## C7: `doesDirExist` -/

/-- C7: for every directory reference `d` that parses, `doesDirExist(d)` returns
`false` whenever its `browse` call throws, whatever the error, and returns `true`
whenever the call returns, whatever the listing. -/
theorem doesDirExist_broad_catch (h : Host) (d : String) (w : World) (dir : Dir)
    (hp : h.parse d = .ok dir) :
    (∀ e, h.browse w.browseLog.length dir.activeSource dir.current dir.bucket = .error e →
        (doesDirExist h d w).1 = .ok false) ∧
      (∀ l, h.browse w.browseLog.length dir.activeSource dir.current dir.bucket = .ok l →
        (doesDirExist h d w).1 = .ok true) := by
  constructor
  · intro e he
    simp [doesDirExist, hp, callBrowse, he]
  · intro l hl
    simp [doesDirExist, hp, callBrowse, hl]

/-- The instances of `doesDirExist_broad_catch` at a host whose `browse` throws and
at a host whose `browse` returns a listing with no files and no directories. -/
theorem doesDirExist_broad_catch_witness :
    (doesDirExist failingBrowseHost "images" emptyWorld).1 = .ok false ∧
      (doesDirExist (localHost false) "images" emptyWorld).1 = .ok true :=
  ⟨(doesDirExist_broad_catch failingBrowseHost "images" emptyWorld ⟨"data", "images", ""⟩ rfl).1
      listingError rfl,
    (doesDirExist_broad_catch (localHost false) "images" emptyWorld ⟨"data", "images", ""⟩ rfl).2
      emptyListing rfl⟩

/-! ## C6: listing errors reach the caller of `fileExists` -/

theorem LogExtends.unchanged (w w' : World) (good : Prop) (hl : w'.browseLog = w.browseLog) :
    LogExtends w w' good :=
  ⟨[], by simp [hl], by simp⟩

theorem LogExtends.append {w w1 w2 : World} {g1 g2 g : Prop}
    (h1 : LogExtends w w1 g1) (h2 : LogExtends w1 w2 g2) (hg : g → g1 ∧ g2) :
    LogExtends w w2 g := by
  obtain ⟨a1, e1, q1⟩ := h1
  obtain ⟨a2, e2, q2⟩ := h2
  refine ⟨a1 ++ a2, by simp [e2, e1], ?_⟩
  intro hgood c hc
  rcases List.mem_append.mp hc with hc | hc
  · exact q1 (hg hgood).1 c hc
  · exact q2 (hg hgood).2 c hc

theorem LogExtends.threw_since {w w' : World} {good : Prop} (hx : LogExtends w w' good)
    (c : BrowseCall) (hc : c ∈ browseCallsSince w w') (ht : c.threw = true) : ¬ good := by
  obtain ⟨added, e, q⟩ := hx
  intro hg
  have : browseCallsSince w w' = added := by simp [browseCallsSince, e]
  rw [this] at hc
  have := q hg c hc
  simp [ht] at this

theorem generateCurrentFiles_logExtends (h : Host) (d : String) (w : World) :
    LogExtends w (generateCurrentFiles h d w).2 (∃ v, (generateCurrentFiles h d w).1 = .ok v) := by
  cases hc : setHas w.known.CHECKED_DIRS d with
  | true =>
    rw [generateCurrentFiles_checked h d w hc]
    exact LogExtends.unchanged _ _ _ rfl
  | false =>
    cases hp : h.parse d with
    | error e =>
      have : generateCurrentFiles h d w = (.error e, w) := by
        simp [generateCurrentFiles, hc, hp]
      rw [this]
      exact LogExtends.unchanged _ _ _ rfl
    | ok dir =>
      have hl := generateCurrentFiles_unchecked_log h d w dir hc hp
      cases hb : h.browse w.browseLog.length dir.activeSource dir.current dir.bucket with
      | error e =>
        have : generateCurrentFiles h d w = (.error e, logBrowse w dir true) := by
          simp [generateCurrentFiles, hc, hp, callBrowse, hb]
        rw [this]
        exact ⟨[⟨dir.activeSource, dir.current, dir.bucket, true⟩], rfl, by simp⟩
      | ok l =>
        have hcb : callBrowse h dir w = (.ok l, logBrowse w dir false) := by
          simp [callBrowse, hb]
        rw [hcb] at hl
        exact ⟨[⟨dir.activeSource, dir.current, dir.bucket, false⟩], hl, by simp⟩

theorem getForgeUrl_logExtends (h : Host) (d f : String) (w : World) :
    LogExtends w (getForgeUrl h d f w).2 (∃ v, (getForgeUrl h d f w).1 = .ok v) := by
  cases hc : setHas w.known.CHECKED_DIRS d with
  | true => exact LogExtends.unchanged _ _ _ (getForgeUrl_checked_frame h d f w hc).2
  | false =>
    have hg := generateCurrentFiles_logExtends h d w
    refine @LogExtends.append w (generateCurrentFiles h d w).2 _ _ True _ hg ?_ ?_
    · apply LogExtends.unchanged
      cases hr : generateCurrentFiles h d w with
      | mk r w1 =>
        have hs : (if !setHas w.known.CHECKED_DIRS d then generateCurrentFiles h d w
            else (.ok (), w)) = (r, w1) := by
          simp [hc, hr]
        cases r with
        | error e => rw [getForgeUrl_scan_failed h d f w w1 e hs]
        | ok v =>
          rcases getForgeUrl_snd_cases h d f w w1 hs with hk | hk
          · rw [hk]
          · rw [hk]
            exact (forgeStatusUser_known h w1).2
    · rintro ⟨v, hv⟩
      refine ⟨?_, trivial⟩
      unfold getForgeUrl at hv
      simp only [hc, Bool.not_false, if_true] at hv
      split at hv
      · simp at hv
      · rename_i u w1 heq
        exact ⟨u, by rw [heq]⟩

theorem getFileUrl_logExtends (h : Host) (d f : String) (w : World) :
    LogExtends w (getFileUrl h d f w).2 (∃ v, (getFileUrl h d f w).1 = .ok v) := by
  cases hu : h.usingTheForge with
  | false => exact LogExtends.unchanged _ _ _ (getFileUrl_frame h d f w (Or.inl hu)).2
  | true =>
    have hg := getForgeUrl_logExtends h d f w
    have h2 : (getFileUrl h d f w).2 = (getForgeUrl h d f w).2 := by
      rw [getFileUrl_snd]
      unfold getFileUrlTry
      simp only [hu, if_true]
      split <;> simp_all
    rw [h2]
    obtain ⟨added, e, q⟩ := hg
    refine ⟨added, e, ?_⟩
    rintro ⟨v, hv⟩
    apply q
    unfold getFileUrl getFileUrlTry at hv
    simp only [hu, if_true] at hv
    cases hr : getForgeUrl h d f w with
    | mk r w1 =>
      cases r with
      | error e0 => simp [hr] at hv
      | ok u => exact ⟨u, rfl⟩

theorem fileExists_logExtends (h : Host) (d f : String) (w : World) :
    LogExtends w (fileExists h d f w).2 (∃ v, (fileExists h d f w).1 = .ok v) := by
  have hg := getFileUrl_logExtends h d f w
  cases hr : getFileUrl h d f w with
  | mk r w1 =>
    rw [hr] at hg
    cases r with
    | error e =>
      have : fileExists h d f w = (.error e, w1) := by simp [fileExists, hr]
      rw [this]
      obtain ⟨added, e1, -⟩ := hg
      exact ⟨added, e1, by simp⟩
    | ok u =>
      cases hin : setHasVal w1.known.FILES u with
      | true =>
        have : fileExists h d f w = (.ok true, w1) := by simp [fileExists, hr, hin]
        rw [this]
        obtain ⟨added, e1, q⟩ := hg
        exact ⟨added, e1, fun _ => q ⟨u, rfl⟩⟩
      | false =>
        have hs := generateCurrentFiles_logExtends h d w1
        cases hr2 : generateCurrentFiles h d w1 with
        | mk r2 w2 =>
          rw [hr2] at hs
          cases r2 with
          | error e =>
            have : fileExists h d f w = (.error e, w2) := by simp [fileExists, hr, hin, hr2]
            rw [this]
            exact LogExtends.append hg hs (by simp)
          | ok v2 =>
            have : fileExists h d f w = (.ok (setHasVal w2.known.FILES u), w2) := by
              simp [fileExists, hr, hin, hr2]
            rw [this]
            exact LogExtends.append hg hs (fun _ => ⟨⟨u, rfl⟩, ⟨v2, rfl⟩⟩)

/-- C6: if a call `fileExists(d, f)` invokes `browse` and that `browse` throws,
then `fileExists(d, f)` fails with an error; it returns neither `false` nor `true`. -/
theorem fileExists_propagates_listing_error (h : Host) (d f : String) (w : World)
    (c : BrowseCall) (hc : c ∈ browseCallsSince w (fileExists h d f w).2)
    (ht : c.threw = true) :
    (∃ e, (fileExists h d f w).1 = .error e) ∧ ∀ b, (fileExists h d f w).1 ≠ .ok b := by
  have hno := (fileExists_logExtends h d f w).threw_since c hc ht
  constructor
  · cases hr : (fileExists h d f w).1 with
    | error e => exact ⟨e, rfl⟩
    | ok b => exact absurd ⟨b, hr⟩ hno
  · intro b hb
    exact hno ⟨b, hb⟩

/-- The instance of `fileExists_propagates_listing_error` at a host whose `browse`
throws, for a file that is not cached. -/
theorem fileExists_propagates_listing_error_witness :
    (∃ e, (fileExists failingBrowseHost "images" "a.png" emptyWorld).1 = .error e) ∧
      ∀ b, (fileExists failingBrowseHost "images" "a.png" emptyWorld).1 ≠ .ok b :=
  fileExists_propagates_listing_error failingBrowseHost "images" "a.png" emptyWorld
    ⟨"data", "images", "", true⟩ (by decide) rfl

/-! ## C8: `KNOWN.FILES` and `KNOWN.DIRS` only grow -/

theorem Grows.refl_known (k : Known) : Grows k k :=
  ⟨List.prefix_refl _, List.prefix_refl _⟩

theorem Grows.trans_known {k1 k2 k3 : Known} (h1 : Grows k1 k2) (h2 : Grows k2 k3) : Grows k1 k3 :=
  ⟨h1.1.trans h2.1, h1.2.trans h2.2⟩

theorem Grows.of_eq {k k' : Known} (hf : k'.FILES = k.FILES) (hd : k'.DIRS = k.DIRS) :
    Grows k k' := by
  unfold Grows
  rw [hf, hd]
  exact ⟨List.prefix_refl _, List.prefix_refl _⟩

theorem setAdd_extends (s : List String) (x : String) : s <+: setAdd s x := by
  unfold setAdd
  split
  · exact List.prefix_refl _
  · exact List.prefix_append _ _

theorem foldl_setAdd_extends (xs s : List String) : s <+: xs.foldl setAdd s := by
  induction xs generalizing s with
  | nil => exact List.prefix_refl _
  | cons x xs ih => exact (setAdd_extends s x).trans (ih (setAdd s x))

theorem fileExistsUpdate_grows (fileList : List String) (k : Known) :
    Grows k (fileExistsUpdate fileList k) :=
  ⟨foldl_setAdd_extends _ _, List.prefix_refl _⟩

theorem dirExistsUpdate_grows (dirList : List String) (k : Known) :
    Grows k (dirExistsUpdate dirList k) :=
  ⟨List.prefix_refl _, foldl_setAdd_extends _ _⟩

theorem bazaarStep_grows (d : String) (k : Known) (file : String) :
    Grows k (bazaarStep d k file) :=
  ⟨setAdd_extends _ _, List.prefix_refl _⟩

theorem foldl_bazaarStep_grows (d : String) (files : List String) (k : Known) :
    Grows k (files.foldl (bazaarStep d) k) := by
  induction files generalizing k with
  | nil => exact Grows.refl_known k
  | cons x xs ih => exact (bazaarStep_grows d k x).trans_known (ih _)

theorem bazaarTargets_grows (d : String) (files : List String) (k : Known) :
    Grows k (bazaarTargets d files k) := by
  unfold bazaarTargets
  dsimp only
  refine Grows.trans_known ?_ (foldl_bazaarStep_grows d files _)
  exact Grows.of_eq rfl rfl

theorem markChecked_grows (d : String) (k : Known) : Grows k (markChecked d k) :=
  Grows.of_eq rfl rfl

theorem callBrowse_known (h : Host) (dir : Dir) (w : World) :
    (callBrowse h dir w).2.known = w.known := by
  unfold callBrowse
  split <;> rfl

theorem doesDirExist_known (h : Host) (d : String) (w : World) :
    (doesDirExist h d w).2.known = w.known := by
  unfold doesDirExist
  split
  · rfl
  · rename_i dir hp
    have := callBrowse_known h dir w
    split <;> simp_all

theorem generateCurrentFiles_grows (h : Host) (d : String) (w : World) :
    Grows w.known (generateCurrentFiles h d w).2.known := by
  unfold generateCurrentFiles
  split
  · exact Grows.refl_known _
  · split
    · exact Grows.refl_known _
    · rename_i dir hp
      have hcb := callBrowse_known h dir w
      split
      · rename_i e w1 heq
        rw [heq] at hcb
        exact Grows.of_eq (by rw [hcb]) (by rw [hcb])
      · rename_i fileList w1 heq
        rw [heq] at hcb
        simp only at hcb
        have hk1 : Grows w.known
            (dirExistsUpdate fileList.dirs (fileExistsUpdate fileList.files w1.known)) := by
          rw [hcb]
          exact (fileExistsUpdate_grows _ _).trans_known (dirExistsUpdate_grows _ _)
        dsimp only
        split
        · split
          · exact hk1.trans_known ((bazaarTargets_grows _ _ _).trans_known (markChecked_grows _ _))
          · have hfs := (forgeStatusUser_known h (World.mk
              (dirExistsUpdate fileList.dirs (fileExistsUpdate fileList.files w1.known))
              w1.browseLog w1.statusCalls)).1
            split
            · rename_i e w2 heq2
              rw [heq2] at hfs
              simp only at hfs
              rw [hfs]
              exact hk1
            · rename_i u w2 heq2
              rw [heq2] at hfs
              simp only at hfs
              refine hk1.trans_known (Grows.of_eq ?_ ?_) <;> simp [markChecked, hfs]
        · exact hk1.trans_known (markChecked_grows _ _)

theorem getForgeUrl_grows (h : Host) (d f : String) (w : World) :
    Grows w.known (getForgeUrl h d f w).2.known := by
  cases hc : setHas w.known.CHECKED_DIRS d with
  | true =>
    have := (getForgeUrl_checked_frame h d f w hc).1
    exact Grows.of_eq (by rw [this]) (by rw [this])
  | false =>
    have hg := generateCurrentFiles_grows h d w
    cases hr : generateCurrentFiles h d w with
    | mk r w1 =>
      rw [hr] at hg
      have hs : (if !setHas w.known.CHECKED_DIRS d then generateCurrentFiles h d w
          else (.ok (), w)) = (r, w1) := by
        simp [hc, hr]
      cases r with
      | error e =>
        rw [getForgeUrl_scan_failed h d f w w1 e hs]
        exact hg
      | ok v =>
        rcases getForgeUrl_snd_cases h d f w w1 hs with hk | hk
        · rw [hk]
          exact hg
        · rw [hk, (forgeStatusUser_known h w1).1]
          exact hg

theorem getFileUrl_grows (h : Host) (d f : String) (w : World) :
    Grows w.known (getFileUrl h d f w).2.known := by
  cases hu : h.usingTheForge with
  | false =>
    have := (getFileUrl_frame h d f w (Or.inl hu)).1
    exact Grows.of_eq (by rw [this]) (by rw [this])
  | true =>
    have hg := getForgeUrl_grows h d f w
    have h2 : (getFileUrl h d f w).2 = (getForgeUrl h d f w).2 := by
      rw [getFileUrl_snd]
      unfold getFileUrlTry
      simp only [hu, if_true]
      split <;> simp_all
    rw [h2]
    exact hg

theorem fileExists_grows (h : Host) (d f : String) (w : World) :
    Grows w.known (fileExists h d f w).2.known := by
  have hg := getFileUrl_grows h d f w
  unfold fileExists
  split
  · rename_i heq
    rw [heq] at hg
    exact hg
  · rename_i u w1 heq
    rw [heq] at hg
    have hs := generateCurrentFiles_grows h d w1
    split
    · exact hg
    · split <;> (rename_i heq2; rw [heq2] at hs; exact hg.trans_known hs)

theorem Op.run_grows (h : Host) (op : Op) (w : World) : Grows w.known (op.run h w).known := by
  cases op with
  | fileExistsUpdate l => exact fileExistsUpdate_grows l w.known
  | dirExistsUpdate l => exact dirExistsUpdate_grows l w.known
  | doesDirExist d =>
    have := doesDirExist_known h d w
    exact Grows.of_eq (by simp [Op.run, this]) (by simp [Op.run, this])
  | generateCurrentFiles d => exact generateCurrentFiles_grows h d w
  | getForgeUrl d f => exact getForgeUrl_grows h d f w
  | getFileUrl d f => exact getFileUrl_grows h d f w
  | fileExists d f => exact fileExists_grows h d f w

theorem runOps_grows (h : Host) (ops : List Op) (w : World) :
    Grows w.known (runOps h ops w).known := by
  induction ops generalizing w with
  | nil => exact Grows.refl_known _
  | cons op ops ih => exact (Op.run_grows h op w).trans_known (ih (op.run h w))

/-- C8: for every starting cache state, every host (so every outcome of the
external calls) and every sequence of `FileHelper` operations with any arguments,
each returning or throwing, `KNOWN.FILES` and `KNOWN.DIRS` afterwards contain
everything they contained before and are no shorter; a single operation is the
sequence of length one. -/
theorem known_files_dirs_never_shrink (h : Host) (ops : List Op) (w : World) :
    (∀ x, x ∈ w.known.FILES → x ∈ (runOps h ops w).known.FILES) ∧
      (∀ x, x ∈ w.known.DIRS → x ∈ (runOps h ops w).known.DIRS) ∧
      w.known.FILES.length ≤ (runOps h ops w).known.FILES.length ∧
      w.known.DIRS.length ≤ (runOps h ops w).known.DIRS.length ∧
      (∀ op : Op, (∀ x, x ∈ w.known.FILES → x ∈ (op.run h w).known.FILES) ∧
        (∀ x, x ∈ w.known.DIRS → x ∈ (op.run h w).known.DIRS)) := by
  obtain ⟨hf, hd⟩ := runOps_grows h ops w
  refine ⟨fun x hx => hf.subset hx, fun x hx => hd.subset hx, hf.length_le, hd.length_le, ?_⟩
  intro op
  obtain ⟨hf1, hd1⟩ := Op.run_grows h op w
  exact ⟨fun x hx => hf1.subset hx, fun x hx => hd1.subset hx⟩

/-! ## C9, C10: failures of `getFileUrl` -/

/-- C9 fails on the code: off the Forge, for a reference whose source is `public`,
`getFileUrl` throws nothing and returns the text `undefined` as the URL; on the
Forge it returns the Forge prefix URL. -/
theorem getFileUrl_unrecognised_source_returns :
    (publicHost false).parse "[public] icons" = .ok ⟨"public", "icons", ""⟩ ∧
      getFileUrl (publicHost false) "[public] icons" "a.png" emptyWorld
        = (.ok (.str "undefined"), emptyWorld) ∧
      (getFileUrl (publicHost true) "[public] icons" "a.png" emptyWorld).1
        = .ok (.str "https://assets.forge-vtt.com/u1/icons/a.png") := by
  refine ⟨?_, ?_, ?_⟩ <;> rfl

theorem getFileUrl_of_try_error (h : Host) (d f : String) (w : World) (e : JSError)
    (he : (getFileUrlTry h d f w).1 = .error e) :
    (getFileUrl h d f w).1 = .error (resolutionError d f) := by
  unfold getFileUrl
  split
  · rfl
  · rename_i heq
    rw [heq] at he
    simp at he
  · rename_i heq
    rw [heq] at he
    simp at he

theorem getForgeUrl_of_scan_error (h : Host) (d f : String) (w : World) (e : JSError)
    (hun : setHas w.known.CHECKED_DIRS d = false)
    (he : (generateCurrentFiles h d w).1 = .error e) :
    (getForgeUrl h d f w).1 = .error e := by
  unfold getForgeUrl
  simp only [hun, Bool.not_false, if_true]
  split
  · rename_i heq
    rw [heq] at he
    simp only [Except.error.injEq] at he
    rw [he]
  · rename_i heq
    rw [heq] at he
    simp at he

/-- C10: whenever a step of the URL assembly inside `getFileUrl` throws (off the
Forge the parse of `d`, the identity lookup of a `forgevtt` reference or the read
of the bucket endpoint of an `s3` reference; on the Forge `getForgeUrl`, in
particular the scan it starts for an unchecked `d`), `getFileUrl(d, f)` fails with
the one error whose message is
`'Unable to determine file URL for directoryPath"' + d + '" and filename"' + f + '"'`,
whatever the original error was, and returns no URL. -/
theorem getFileUrl_wraps_errors (h : Host) (d f : String) (w : World)
    (hthrows :
      (h.usingTheForge = false ∧ ∃ e, h.parse d = .error e) ∨
      (h.usingTheForge = false ∧ ∃ dir e, h.parse d = .ok dir ∧ dir.activeSource = "forgevtt" ∧
        (forgeStatusUser h w).1 = .error e) ∨
      (h.usingTheForge = false ∧ ∃ dir e, h.parse d = .ok dir ∧ dir.activeSource = "s3" ∧
        h.s3hostname = .error e) ∨
      (h.usingTheForge = true ∧ ∃ e, (getForgeUrl h d f w).1 = .error e) ∨
      (h.usingTheForge = true ∧ setHas w.known.CHECKED_DIRS d = false ∧
        ∃ e, (generateCurrentFiles h d w).1 = .error e)) :
    (getFileUrl h d f w).1
      = .error ⟨"Error", "Unable to determine file URL for directoryPath\"" ++ d
          ++ "\" and filename\"" ++ f ++ "\""⟩ := by
  have forge : h.usingTheForge = true → ∀ e, (getForgeUrl h d f w).1 = .error e →
      (getFileUrlTry h d f w).1 = .error e := by
    intro hu e he
    unfold getFileUrlTry
    simp only [hu, if_true]
    split
    · rename_i heq
      rw [heq] at he
      simp only [Except.error.injEq] at he
      rw [he]
    · rename_i heq
      rw [heq] at he
      simp at he
  have sd : ("forgevtt" == "data") = false := by decide
  have s3d : ("s3" == "data") = false := by decide
  have s3f : ("s3" == "forgevtt") = false := by decide
  rcases hthrows with ⟨hu, e, hp⟩ | ⟨hu, dir, e, hp, hsrc, hid⟩ | ⟨hu, dir, e, hp, hsrc, hh⟩ |
    ⟨hu, e, he⟩ | ⟨hu, hun, e, he⟩
  · exact getFileUrl_of_try_error h d f w e (by simp [getFileUrlTry, hu, hp])
  · refine getFileUrl_of_try_error h d f w e ?_
    unfold getFileUrlTry
    simp only [hu, Bool.false_eq_true, if_false, hp, hsrc, sd, beq_self_eq_true, if_true]
    split
    · rename_i heq
      rw [heq] at hid
      simp only [Except.error.injEq] at hid
      rw [hid]
    · rename_i heq
      rw [heq] at hid
      simp at hid
  · exact getFileUrl_of_try_error h d f w e (by simp [getFileUrlTry, hu, hp, hsrc, s3d, s3f, hh])
  · exact getFileUrl_of_try_error h d f w e (forge hu e he)
  · exact getFileUrl_of_try_error h d f w e
      (forge hu e (getForgeUrl_of_scan_error h d f w e hun he))

/-- The instance of `getFileUrl_wraps_errors` at a reference that does not parse. -/
theorem getFileUrl_wraps_errors_witness :
    (getFileUrl unparsableHost "icons" "a.png" emptyWorld).1
      = .error ⟨"Error",
          "Unable to determine file URL for directoryPath\"icons\" and filename\"a.png\""⟩ :=
  getFileUrl_wraps_errors unparsableHost "icons" "a.png" emptyWorld
    (Or.inl ⟨rfl, parseError, rfl⟩)


/-! ## C16: `doesDirExist` records nothing -/

/-- C16: for every directory reference `d`, every cache state and every outcome of
the parse and of `browse` (a listing returned or an error thrown), `doesDirExist(d)`
leaves `KNOWN.FILES`, `KNOWN.DIRS`, `CHECKED_DIRS`, `FORGE.TARGETS` and
`FORGE.TARGET_URL_PREFIX` exactly as they were. -/
theorem doesDirExist_leaves_caches (h : Host) (d : String) (w : World) :
    (doesDirExist h d w).2.known = w.known ∧
      (doesDirExist h d w).2.known.FILES = w.known.FILES ∧
      (doesDirExist h d w).2.known.DIRS = w.known.DIRS ∧
      (doesDirExist h d w).2.known.CHECKED_DIRS = w.known.CHECKED_DIRS ∧
      (doesDirExist h d w).2.known.FORGE.TARGETS = w.known.FORGE.TARGETS ∧
      (doesDirExist h d w).2.known.FORGE.TARGET_URL_PREFIX = w.known.FORGE.TARGET_URL_PREFIX := by
  have hk := doesDirExist_known h d w
  refine ⟨hk, ?_, ?_, ?_, ?_, ?_⟩ <;> rw [hk]

/-! ## C17: `fileExistsUpdate` and `dirExistsUpdate` -/

theorem setHas_iff_mem (s : List String) (x : String) : setHas s x = true ↔ x ∈ s := by
  simp [setHas]

theorem mem_setAdd (s : List String) (x y : String) : y ∈ setAdd s x ↔ y ∈ s ∨ y = x := by
  unfold setAdd
  split
  · rename_i hx
    rw [setHas_iff_mem] at hx
    constructor
    · exact Or.inl
    · rintro (hy | hy)
      · exact hy
      · rw [hy]
        exact hx
  · simp

theorem mem_foldl_setAdd (xs s : List String) (y : String) :
    y ∈ xs.foldl setAdd s ↔ y ∈ s ∨ y ∈ xs := by
  induction xs generalizing s with
  | nil => simp
  | cons x xs ih =>
    rw [List.foldl_cons, ih, mem_setAdd]
    simp only [List.mem_cons]
    tauto

theorem mem_recorded (xs s : List String) (y : String) :
    y ∈ (xs.filter (fun f => !setHas s f)).foldl setAdd s ↔ y ∈ s ∨ y ∈ xs := by
  rw [mem_foldl_setAdd]
  simp only [List.mem_filter, Bool.not_eq_true', Bool.not_eq_eq_eq_not, Bool.not_true]
  constructor
  · rintro (hy | ⟨hy, -⟩)
    · exact Or.inl hy
    · exact Or.inr hy
  · rintro (hy | hy)
    · exact Or.inl hy
    · by_cases hs : y ∈ s
      · exact Or.inl hs
      · refine Or.inr ⟨hy, ?_⟩
        cases hb : setHas s y with
        | false => rfl
        | true => exact absurd ((setHas_iff_mem s y).mp hb) hs

theorem recorded_again (xs s : List String) :
    (xs.filter (fun f => !setHas ((xs.filter (fun f => !setHas s f)).foldl setAdd s) f)) = [] := by
  rw [List.filter_eq_nil_iff]
  intro a ha
  have : a ∈ (xs.filter (fun f => !setHas s f)).foldl setAdd s :=
    (mem_recorded xs s a).mpr (Or.inr ha)
  simp [(setHas_iff_mem _ a).mpr this]

theorem nodup_setAdd (s : List String) (x : String) (hs : s.Nodup) : (setAdd s x).Nodup := by
  unfold setAdd
  split
  · exact hs
  · rename_i hx
    rw [setHas_iff_mem] at hx
    exact List.Nodup.append hs (List.nodup_singleton x) (by simpa using hx)

theorem nodup_foldl_setAdd (xs s : List String) (hs : s.Nodup) : (xs.foldl setAdd s).Nodup := by
  induction xs generalizing s with
  | nil => exact hs
  | cons x xs ih => exact ih _ (nodup_setAdd s x hs)

/-- C17: for every list `L` and every cache state, `fileExistsUpdate(L)` leaves
`KNOWN.FILES` holding exactly its old values and the elements of `L`, touches no
other cache, adds no duplicate, and is idempotent: applied twice with the same `L`
it gives the same state as applied once. Likewise `dirExistsUpdate` and
`KNOWN.DIRS`. -/
theorem exists_update_union_idempotent (L : List String) (k : Known) :
    ((∀ x, x ∈ (fileExistsUpdate L k).FILES ↔ x ∈ k.FILES ∨ x ∈ L) ∧
        (fileExistsUpdate L k).DIRS = k.DIRS ∧
        (fileExistsUpdate L k).CHECKED_DIRS = k.CHECKED_DIRS ∧
        (fileExistsUpdate L k).FORGE = k.FORGE ∧
        (k.FILES.Nodup → (fileExistsUpdate L k).FILES.Nodup) ∧
        fileExistsUpdate L (fileExistsUpdate L k) = fileExistsUpdate L k) ∧
      ((∀ x, x ∈ (dirExistsUpdate L k).DIRS ↔ x ∈ k.DIRS ∨ x ∈ L) ∧
        (dirExistsUpdate L k).FILES = k.FILES ∧
        (dirExistsUpdate L k).CHECKED_DIRS = k.CHECKED_DIRS ∧
        (dirExistsUpdate L k).FORGE = k.FORGE ∧
        (k.DIRS.Nodup → (dirExistsUpdate L k).DIRS.Nodup) ∧
        dirExistsUpdate L (dirExistsUpdate L k) = dirExistsUpdate L k) := by
  refine ⟨⟨fun x => mem_recorded L k.FILES x, rfl, rfl, rfl,
      fun hn => nodup_foldl_setAdd _ _ hn, ?_⟩,
    ⟨fun x => mem_recorded L k.DIRS x, rfl, rfl, rfl, fun hn => nodup_foldl_setAdd _ _ hn, ?_⟩⟩
  · unfold fileExistsUpdate
    simp only [recorded_again, List.foldl_nil]
  · unfold dirExistsUpdate
    simp only [recorded_again, List.foldl_nil]

/-! ## C19: `removeFileExtension` -/

theorem splitChars_ne_nil (sep : Char) (l : List Char) : splitChars sep l ≠ [] := by
  cases l with
  | nil => simp [splitChars]
  | cons c cs =>
    unfold splitChars
    split
    · simp
    · split <;> simp

theorem splitChars_of_not_mem (sep : Char) (l : List Char) (hl : sep ∉ l) :
    splitChars sep l = [l] := by
  induction l with
  | nil => rfl
  | cons c cs ih =>
    have hc : c ≠ sep := fun hcs => hl (by simp [hcs])
    have hcs : sep ∉ cs := fun hm => hl (List.mem_cons_of_mem _ hm)
    simp [splitChars, hc, ih hcs]

theorem splitChars_append (sep : Char) (a b : List Char) (hb : sep ∉ b) :
    splitChars sep (a ++ sep :: b) = splitChars sep a ++ [b] := by
  induction a with
  | nil => simp [splitChars, splitChars_of_not_mem sep b hb]
  | cons c cs ih =>
    by_cases hc : c = sep
    · simp [splitChars, hc, ih]
    · have hne := splitChars_ne_nil sep cs
      cases hs : splitChars sep cs with
      | nil => exact absurd hs hne
      | cons seg rest => simp [splitChars, hc, ih, hs]

theorem joinChars_splitChars (sep : Char) (l : List Char) :
    joinChars sep (splitChars sep l) = l := by
  induction l with
  | nil => rfl
  | cons c cs ih =>
    have hne := splitChars_ne_nil sep cs
    cases hs : splitChars sep cs with
    | nil => exact absurd hs hne
    | cons seg rest =>
      rw [hs] at ih
      by_cases hc : c = sep
      · simp [splitChars, hc, hs, joinChars, ih]
      · cases rest with
        | nil =>
          simp only [joinChars] at ih
          simp [splitChars, hc, hs, joinChars, ih]
        | cons q r =>
          simp only [joinChars] at ih
          simp [splitChars, hc, hs, joinChars, ih]

theorem exists_last_occurrence (c : Char) (l : List Char) (hl : c ∈ l) :
    ∃ a b, l = a ++ c :: b ∧ c ∉ b := by
  induction l with
  | nil => simp at hl
  | cons x xs ih =>
    by_cases hx : c ∈ xs
    · obtain ⟨a, b, hab, hb⟩ := ih hx
      exact ⟨x :: a, b, by simp [hab], hb⟩
    · have : c = x := by
        rcases List.mem_cons.mp hl with h1 | h1
        · exact h1
        · exact absurd h1 hx
      exact ⟨[], xs, by simp [this], hx⟩

theorem removeFileExtension_of_parts (a b : String) (hb : '.' ∉ b.data) :
    removeFileExtension (a ++ "." ++ b) = a := by
  unfold removeFileExtension
  have hd : (a ++ "." ++ b).data = a.data ++ '.' :: b.data := by
    simp [String.data_append]
  simp only [hd, splitChars_append '.' a.data b.data hb, List.dropLast_concat,
    joinChars_splitChars]

/-- C19: for every string `name`, `removeFileExtension(name)` is the part of `name`
before its last `"."` when `name` contains a `"."` (for every `a` and every dot-free
`b`, `removeFileExtension(a + "." + b) = a`, and every name with a dot is of that
form), and is the empty string when `name` contains no `"."` at all. -/
theorem removeFileExtension_spec :
    (∀ a b : String, '.' ∉ b.data → removeFileExtension (a ++ "." ++ b) = a) ∧
      (∀ name : String, '.' ∈ name.data →
        ∃ a b : String, name = a ++ "." ++ b ∧ '.' ∉ b.data ∧ removeFileExtension name = a) ∧
      (∀ name : String, '.' ∉ name.data → removeFileExtension name = "") ∧
      removeFileExtension "archive.tar.gz" = "archive.tar" ∧
      removeFileExtension ".hidden" = "" ∧
      removeFileExtension "README" = "" := by
  refine ⟨removeFileExtension_of_parts, ?_, ?_, by decide, by decide, by decide⟩
  · intro name hn
    obtain ⟨a, b, hab, hb⟩ := exists_last_occurrence '.' name.data hn
    have hname : name = String.mk a ++ "." ++ String.mk b := by
      apply String.ext
      simp [String.data_append, hab]
    exact ⟨String.mk a, String.mk b, hname, hb, by
      rw [hname]
      exact removeFileExtension_of_parts _ _ hb⟩
  · intro name hn
    unfold removeFileExtension
    simp [splitChars_of_not_mem '.' name.data hn, joinChars]

/-! ## C11: what `fileExists` answers after a scan -/

theorem generateCurrentFiles_offForge_ok (h : Host) (d : String) (w : World) (dir : Dir)
    (L : Listing) (hf : h.usingTheForge = false)
    (hun : setHas w.known.CHECKED_DIRS d = false) (hp : h.parse d = .ok dir)
    (hb : h.browse w.browseLog.length dir.activeSource dir.current dir.bucket = .ok L) :
    generateCurrentFiles h d w
      = (.ok (), World.mk
          (markChecked d (dirExistsUpdate L.dirs (fileExistsUpdate L.files w.known)))
          (w.browseLog ++ [⟨dir.activeSource, dir.current, dir.bucket, false⟩])
          w.statusCalls) := by
  simp [generateCurrentFiles, hun, hp, callBrowse, hb, hf, logBrowse]

theorem setHasVal_recorded (xs s : List String) (u : JSVal)
    (hmiss : setHasVal s u = false) :
    setHasVal ((xs.filter (fun f => !setHas s f)).foldl setAdd s) u = setHasVal xs u := by
  cases u with
  | undefined => rfl
  | foreign t text => rfl
  | str x =>
    simp only [setHasVal] at hmiss ⊢
    have hx : x ∉ s := by
      intro hm
      rw [(setHas_iff_mem s x).mpr hm] at hmiss
      exact Bool.noConfusion hmiss
    rw [Bool.eq_iff_iff, setHas_iff_mem, setHas_iff_mem, mem_recorded]
    constructor
    · rintro (hm | hm)
      · exact absurd hm hx
      · exact hm
    · exact Or.inr

theorem fileExists_value (h : Host) (d f : String) (w : World) (b : Bool)
    (hb : (fileExists h d f w).1 = .ok b) :
    ∃ u, (getFileUrl h d f w).1 = .ok u ∧
      b = setHasVal (fileExists h d f w).2.known.FILES u := by
  unfold fileExists at hb ⊢
  cases hr : getFileUrl h d f w with
  | mk r w1 =>
    cases r with
    | error e => simp [hr] at hb
    | ok u =>
      refine ⟨u, rfl, ?_⟩
      simp only [hr] at hb ⊢
      cases hin : setHasVal w1.known.FILES u with
      | true =>
        simp only [hin, if_true, Except.ok.injEq] at hb ⊢
        exact hb.symm
      | false =>
        simp only [hin, Bool.false_eq_true, if_false] at hb ⊢
        cases hr2 : generateCurrentFiles h d w1 with
        | mk r2 w2 =>
          cases r2 with
          | error e => simp [hr2] at hb
          | ok v =>
            simp only [hr2, Except.ok.injEq] at hb ⊢
            exact hb.symm

/-- C11: off the Forge, for every `d` not in `CHECKED_DIRS` and every filename `f`
whose resolved URL `u` is not in `KNOWN.FILES`, if the `browse` call of the scan
returns the listing `L`, then `fileExists(d, f)` returns whether `u` is an element
of `L.files` (so `true` exactly when it is); and whenever `fileExists` returns a
value, that value is the membership of the resolved URL in `KNOWN.FILES` of the
state it leaves behind. -/
theorem fileExists_after_scan (h : Host) (d f : String) (w : World) (dir : Dir)
    (u : JSVal) (L : Listing)
    (hf : h.usingTheForge = false)
    (hun : setHas w.known.CHECKED_DIRS d = false)
    (hurl : (getFileUrl h d f w).1 = .ok u)
    (hmiss : setHasVal w.known.FILES u = false)
    (hp : h.parse d = .ok dir)
    (hb : h.browse w.browseLog.length dir.activeSource dir.current dir.bucket = .ok L) :
    (fileExists h d f w).1 = .ok (setHasVal L.files u) ∧
      ((fileExists h d f w).1 = .ok true ↔ setHasVal L.files u = true) ∧
      (fileExists h d f w).1 = .ok (setHasVal (fileExists h d f w).2.known.FILES u) ∧
      (∀ (h0 : Host) (d0 f0 : String) (w0 : World) (b : Bool),
        (fileExists h0 d0 f0 w0).1 = .ok b →
        ∃ u0, (getFileUrl h0 d0 f0 w0).1 = .ok u0 ∧
          b = setHasVal (fileExists h0 d0 f0 w0).2.known.FILES u0) := by
  obtain ⟨hk, hl⟩ := getFileUrl_frame h d f w (Or.inl hf)
  have key : (fileExists h d f w).1 = .ok (setHasVal L.files u) := by
    cases hr : getFileUrl h d f w with
    | mk r w1 =>
      rw [hr] at hurl hk hl
      simp only at hurl hk hl
      subst hurl
      have hun1 : setHas w1.known.CHECKED_DIRS d = false := by rw [hk]; exact hun
      have hb1 : h.browse w1.browseLog.length dir.activeSource dir.current dir.bucket = .ok L := by
        rw [hl]; exact hb
      have hmiss1 : setHasVal w1.known.FILES u = false := by rw [hk]; exact hmiss
      have hg := generateCurrentFiles_offForge_ok h d w1 dir L hf hun1 hp hb1
      unfold fileExists
      simp only [hr, hmiss1, Bool.false_eq_true, if_false, hg]
      simp only [markChecked, dirExistsUpdate, fileExistsUpdate]
      rw [setHasVal_recorded L.files w1.known.FILES u hmiss1]
  refine ⟨key, ?_, ?_, fileExists_value⟩
  · rw [key]
    simp
  · obtain ⟨u0, hu0, hv⟩ := fileExists_value h d f w _ key
    rw [hurl] at hu0
    simp only [Except.ok.injEq] at hu0
    subst hu0
    rw [key, hv]

/-- The instances of `fileExists_after_scan` at a local directory whose listing
holds the file asked for. -/
theorem fileExists_after_scan_witness :
    (fileExists
        (staticHost false (.ok ⟨"data", "images", ""⟩)
          (.ok ⟨["images/a%20b.png", "images/c.png"], [], false⟩) (.ok "u1"))
        "images" "a b.png" emptyWorld).1 = .ok true :=
  (fileExists_after_scan
    (staticHost false (.ok ⟨"data", "images", ""⟩)
      (.ok ⟨["images/a%20b.png", "images/c.png"], [], false⟩) (.ok "u1"))
    "images" "a b.png" emptyWorld ⟨"data", "images", ""⟩ (.str "images/a%20b.png")
    ⟨["images/a%20b.png", "images/c.png"], [], false⟩ rfl rfl rfl rfl rfl rfl).1

/-! ## C13: `getFileUrl` on local and bucket references -/

/-- C13, as stated, fails on the Forge: for a reference that parses to the local
source, `getFileUrl` runs the scan of `getForgeUrl`, which invokes `browse` and the
identity lookup once each and records the directory and its URL prefix. -/
theorem getFileUrl_local_on_forge_scans :
    (localHost true).parse "images" = .ok ⟨"data", "images", ""⟩ ∧
      (getFileUrl (localHost true) "images" "a.png" emptyWorld).2.browseLog
        = [⟨"data", "images", "", false⟩] ∧
      emptyWorld.statusCalls = 0 ∧
      (getFileUrl (localHost true) "images" "a.png" emptyWorld).2.statusCalls = 1 ∧
      emptyWorld.known.CHECKED_DIRS = [] ∧
      (getFileUrl (localHost true) "images" "a.png" emptyWorld).2.known.CHECKED_DIRS
        = ["images"] ∧
      (getFileUrl (localHost true) "images" "a.png" emptyWorld).2.known.FORGE.TARGET_URL_PREFIX
        = [("images", "https://assets.forge-vtt.com/u1/images")] := by
  refine ⟨?_, ?_, ?_, ?_, ?_, ?_, ?_⟩ <;> rfl

/-- C13, amended: when the Forge host is not active, or `d` is already in
`CHECKED_DIRS`, for every directory reference `d` whose parsed backend is local
(`"data"`) or bucket (`"s3"`), every filename `f` and every cache state,
`getFileUrl(d, f)` invokes neither `browse` nor the identity lookup and leaves
every cache unchanged, whether it returns or throws. -/
theorem getFileUrl_local_bucket_pure (h : Host) (d f : String) (w : World) (dir : Dir)
    (hs : h.usingTheForge = false ∨ setHas w.known.CHECKED_DIRS d = true)
    (hp : h.parse d = .ok dir)
    (hsrc : dir.activeSource = "data" ∨ dir.activeSource = "s3") :
    (getFileUrl h d f w).2 = w ∧
      browseCallsSince w (getFileUrl h d f w).2 = [] ∧
      (getFileUrl h d f w).2.statusCalls = w.statusCalls ∧
      (getFileUrl h d f w).2.known = w.known := by
  have h1 : ("s3" == "data") = false := by decide
  have h2 : ("s3" == "forgevtt") = false := by decide
  have key : (getFileUrl h d f w).2 = w := by
    rw [getFileUrl_snd]
    cases hu : h.usingTheForge with
    | false =>
      unfold getFileUrlTry
      simp only [hu, Bool.false_eq_true, if_false, hp]
      rcases hsrc with hsd | hsd
      · simp [hsd]
      · simp only [hsd, h1, h2, Bool.false_eq_true, if_false, beq_self_eq_true, if_true]
        split <;> rfl
    | true =>
      have hc : setHas w.known.CHECKED_DIRS d = true := by
        rcases hs with hs | hs
        · simp [hu] at hs
        · exact hs
      have hg : (getForgeUrl h d f w).2 = w := by
        unfold getForgeUrl
        simp only [hc, Bool.not_true, Bool.false_eq_true, if_false, hp]
        split
        · rfl
        · split
          · rfl
          · split
            · rfl
            · rcases hsrc with hsd | hsd
              · simp [hsd]
              · simp [hsd, h1, h2]
      unfold getFileUrlTry
      simp only [hu, if_true]
      split <;> (rename_i heq; rw [heq] at hg; exact hg)
  rw [key]
  exact ⟨rfl, by simp [browseCallsSince], rfl, rfl⟩

/-- The instances of `getFileUrl_local_bucket_pure` at a bucket reference off the
Forge and at a checked local reference on the Forge. -/
theorem getFileUrl_local_bucket_pure_witness :
    ((getFileUrl (bucketHost false) "[s3:myassets] maps" "town.jpg" oneFileWorld).2
        = oneFileWorld ∧
      browseCallsSince oneFileWorld
        (getFileUrl (bucketHost false) "[s3:myassets] maps" "town.jpg" oneFileWorld).2 = [] ∧
      (getFileUrl (bucketHost false) "[s3:myassets] maps" "town.jpg" oneFileWorld).2.statusCalls
        = oneFileWorld.statusCalls ∧
      (getFileUrl (bucketHost false) "[s3:myassets] maps" "town.jpg" oneFileWorld).2.known
        = oneFileWorld.known) ∧
    ((getFileUrl (localHost true) "images" "a.png" scannedImagesWorld).2
        = scannedImagesWorld ∧
      browseCallsSince scannedImagesWorld
        (getFileUrl (localHost true) "images" "a.png" scannedImagesWorld).2 = [] ∧
      (getFileUrl (localHost true) "images" "a.png" scannedImagesWorld).2.statusCalls
        = scannedImagesWorld.statusCalls ∧
      (getFileUrl (localHost true) "images" "a.png" scannedImagesWorld).2.known
        = scannedImagesWorld.known) :=
  ⟨getFileUrl_local_bucket_pure (bucketHost false) "[s3:myassets] maps" "town.jpg" oneFileWorld
      ⟨"s3", "maps", "myassets"⟩ (Or.inl rfl) rfl (Or.inr rfl),
    getFileUrl_local_bucket_pure (localHost true) "images" "a.png" scannedImagesWorld
      ⟨"data", "images", ""⟩ (Or.inr rfl) rfl (Or.inl rfl)⟩

/-! ## Dictionary objects -/

theorem objGet_objSet_self {α : Type} (o : List (String × α)) (k : String) (v : α) :
    objGet (objSet o k v) k = some v := by
  induction o with
  | nil => simp [objSet, objGet, List.lookup]
  | cons kv rest ih =>
    obtain ⟨k0, v0⟩ := kv
    unfold objSet
    by_cases hk : k0 = k
    · simp [hk, objGet, List.lookup]
    · have hk2 : (k == k0) = false := by simpa using fun hh => hk hh.symm
      simp only [beq_iff_eq, hk, if_false]
      simp only [objGet, List.lookup, hk2]
      exact ih

theorem objGet_objSet_other {α : Type} (o : List (String × α)) (k k1 : String) (v : α)
    (hne : k1 ≠ k) : objGet (objSet o k v) k1 = objGet o k1 := by
  induction o with
  | nil =>
    have : (k1 == k) = false := by simpa using hne
    simp [objSet, objGet, List.lookup, this]
  | cons kv rest ih =>
    obtain ⟨k0, v0⟩ := kv
    unfold objSet
    by_cases hk : k0 = k
    · have : (k1 == k0) = false := by simpa [hk] using hne
      simp [hk, objGet, List.lookup, this]
      rw [hk] at this
      simp [this]
    · simp only [beq_iff_eq, hk, if_false]
      simp only [objGet, List.lookup]
      cases hb : k1 == k0 with
      | true => rfl
      | false => exact ih

theorem setHas_setAdd_of_setHas (s : List String) (x y : String) (hy : setHas s y = true) :
    setHas (setAdd s x) y = true := by
  rw [setHas_iff_mem] at hy ⊢
  exact (mem_setAdd s x y).mpr (Or.inl hy)

theorem forge_prefix_ne_empty (userId current : String) :
    "https://assets.forge-vtt.com/" ++ userId ++ "/" ++ current ≠ "" := by
  intro hh
  have := congrArg String.length hh
  simp [String.length_append] at this
  have h29 : "https://assets.forge-vtt.com/".length = 29 := by decide
  omega

theorem plainSet_cases (o : List (String × String)) (key s : String) :
    plainSet o key s = objSet o key s ∨ (plainSet o key s = o ∧ objGet o key = none) := by
  unfold plainSet
  split
  · rename_i hc
    right
    simp only [Bool.and_eq_true, Option.isNone_iff_eq_none] at hc
    exact ⟨rfl, hc.2⟩
  · exact Or.inl rfl

theorem objGet_plainSet_other (o : List (String × String)) (key k1 s : String)
    (hne : k1 ≠ key) : objGet (plainSet o key s) k1 = objGet o k1 := by
  rcases plainSet_cases o key s with hc | ⟨hc, -⟩
  · rw [hc]
    exact objGet_objSet_other _ _ _ _ hne
  · rw [hc]

theorem objGet_plainSet_self (o : List (String × String)) (key s : String)
    (hk : key ≠ "__proto__") : objGet (plainSet o key s) key = some s := by
  have : plainSet o key s = objSet o key s := by
    unfold plainSet
    have hb : (key == "__proto__") = false := by simpa using hk
    simp [hb]
  rw [this]
  exact objGet_objSet_self _ _ _

theorem truthy_plainGet_plainSet (h : Host) (o : List (String × String)) (key s : String)
    (hs : s ≠ "") : truthy (plainGet h (plainSet o key s) key) = true := by
  by_cases hk : key = "__proto__"
  · rcases plainSet_cases o key s with hc | ⟨hc, hnone⟩
    · rw [hc]
      simp [plainGet, objGet_objSet_self, truthy, hs]
    · rw [hc]
      subst hk
      simp [plainGet, hnone, objectPrototypeItself, truthy]
  · simp [plainGet, objGet_plainSet_self o key s hk, truthy, hs]

/-! ## The invariant of the Forge dictionaries -/

theorem ForgeInv.of_same {b : Bool} {k k1 : Known} (hi : ForgeInv b k)
    (hc : k1.CHECKED_DIRS = k.CHECKED_DIRS) (hf : k1.FORGE = k.FORGE) : ForgeInv b k1 := by
  intro d
  rw [hc, hf]
  exact hi d

theorem ForgeInv.after_markChecked {b : Bool} {k : Known} (hi : ForgeInv b k) (d : String) :
    ForgeInv b (NoteLicker.markChecked d k) := by
  intro d1
  obtain ⟨h1, h2⟩ := hi d1
  constructor
  · intro p hp
    obtain ⟨a1, a2, a3, a4⟩ := h1 p hp
    exact ⟨a1, setHas_setAdd_of_setHas _ _ _ a2, a3, a4⟩
  · intro m hm
    exact setHas_setAdd_of_setHas _ _ _ (h2 m hm)

theorem foldl_bazaarStep_spec (d : String) (files : List String) (k : Known)
    (m0 : List (String × String)) (hm : objGet k.FORGE.TARGETS d = some m0) :
    objGet (files.foldl (bazaarStep d) k).FORGE.TARGETS d = some (bazaarMap files m0) ∧
      (∀ d1, d1 ≠ d →
        objGet (files.foldl (bazaarStep d) k).FORGE.TARGETS d1 = objGet k.FORGE.TARGETS d1) ∧
      (files.foldl (bazaarStep d) k).FORGE.TARGET_URL_PREFIX = k.FORGE.TARGET_URL_PREFIX ∧
      (files.foldl (bazaarStep d) k).CHECKED_DIRS = k.CHECKED_DIRS ∧
      (files.foldl (bazaarStep d) k).DIRS = k.DIRS ∧
      (files.foldl (bazaarStep d) k).FILES = files.foldl setAdd k.FILES := by
  induction files generalizing k m0 with
  | nil => exact ⟨hm, fun _ _ => rfl, rfl, rfl, rfl, rfl⟩
  | cons x xs ih =>
    have hstep : objGet (bazaarStep d k x).FORGE.TARGETS d
        = some (plainSet m0 (lastSegment x) x) := by
      simp only [bazaarStep, hm, Option.getD_some]
      exact objGet_objSet_self _ _ _
    obtain ⟨a1, a2, a3, a4, a5, a6⟩ := ih (bazaarStep d k x) _ hstep
    simp only [List.foldl_cons]
    refine ⟨a1, ?_, a3, a4, a5, a6⟩
    intro d1 hd1
    rw [a2 d1 hd1]
    simp only [bazaarStep]
    exact objGet_objSet_other _ _ _ _ hd1

theorem bazaarTargets_spec (d : String) (files : List String) (k : Known) :
    objGet (bazaarTargets d files k).FORGE.TARGETS d = some (bazaarMap files []) ∧
      (∀ d1, d1 ≠ d →
        objGet (bazaarTargets d files k).FORGE.TARGETS d1 = objGet k.FORGE.TARGETS d1) ∧
      (bazaarTargets d files k).FORGE.TARGET_URL_PREFIX = k.FORGE.TARGET_URL_PREFIX ∧
      (bazaarTargets d files k).CHECKED_DIRS = k.CHECKED_DIRS ∧
      (bazaarTargets d files k).DIRS = k.DIRS ∧
      (bazaarTargets d files k).FILES = files.foldl setAdd k.FILES := by
  unfold bazaarTargets
  dsimp only
  have h0 : objGet (Known.mk k.FILES k.DIRS k.CHECKED_DIRS
      (Forge.mk (objSet k.FORGE.TARGETS d []) k.FORGE.TARGET_URL_PREFIX)).FORGE.TARGETS d
      = some [] := objGet_objSet_self _ _ _
  obtain ⟨a1, a2, a3, a4, a5, a6⟩ := foldl_bazaarStep_spec d files _ [] h0
  refine ⟨a1, ?_, a3, a4, a5, a6⟩
  intro d1 hd1
  rw [a2 d1 hd1]
  exact objGet_objSet_other _ _ _ _ hd1

theorem ForgeInv.unchecked {b : Bool} {k : Known} (hi : ForgeInv b k) (d : String)
    (hun : setHas k.CHECKED_DIRS d = false) :
    objGet k.FORGE.TARGET_URL_PREFIX d = none ∧ objGet k.FORGE.TARGETS d = none := by
  obtain ⟨h1, h2⟩ := hi d
  constructor
  · cases hp : objGet k.FORGE.TARGET_URL_PREFIX d with
    | none => rfl
    | some p =>
      have := (h1 p hp).2.1
      rw [hun] at this
      exact Bool.noConfusion this
  · cases hm : objGet k.FORGE.TARGETS d with
    | none => rfl
    | some m =>
      have := h2 m hm
      rw [hun] at this
      exact Bool.noConfusion this

theorem ForgeInv.after_bazaar {k : Known} (hi : ForgeInv true k) (d : String)
    (files : List String) (hun : setHas k.CHECKED_DIRS d = false) :
    ForgeInv true (NoteLicker.markChecked d (bazaarTargets d files k)) := by
  obtain ⟨a1, a2, a3, a4, -, -⟩ := bazaarTargets_spec d files k
  obtain ⟨hp0, -⟩ := hi.unchecked d hun
  intro d1
  by_cases hd : d1 = d
  · subst hd
    constructor
    · intro p hp
      simp only [markChecked, a3, hp0] at hp
      exact Option.noConfusion hp
    · intro m _
      simp [markChecked, setHas_setAdd]
  · obtain ⟨h1, h2⟩ := hi d1
    constructor
    · intro p hp
      simp only [markChecked, a3] at hp
      obtain ⟨b1, b2, b3, b4⟩ := h1 p hp
      refine ⟨b1, ?_, ?_, b4⟩
      · simp only [markChecked, a4]
        exact setHas_setAdd_of_setHas _ _ _ b2
      · simp only [markChecked]
        rw [a2 d1 hd]
        exact b3
    · intro m hm
      simp only [markChecked] at hm
      rw [a2 d1 hd] at hm
      simp only [markChecked, a4]
      exact setHas_setAdd_of_setHas _ _ _ (h2 m hm)

theorem ForgeInv.after_scan_url {k : Known} (hi : ForgeInv true k) (d p : String)
    (hun : setHas k.CHECKED_DIRS d = false) (hp : p ≠ "") :
    ForgeInv true (NoteLicker.markChecked d
      (Known.mk k.FILES k.DIRS k.CHECKED_DIRS
        (Forge.mk k.FORGE.TARGETS (plainSet k.FORGE.TARGET_URL_PREFIX d p)))) := by
  obtain ⟨hp0, hm0⟩ := hi.unchecked d hun
  intro d1
  by_cases hd : d1 = d
  · subst hd
    constructor
    · intro q hq
      simp only [markChecked] at hq
      rcases plainSet_cases k.FORGE.TARGET_URL_PREFIX d1 p with hc | ⟨hc, -⟩
      · rw [hc, objGet_objSet_self, Option.some.injEq] at hq
        subst hq
        exact ⟨hp, by simp [markChecked, setHas_setAdd], hm0, rfl⟩
      · rw [hc, hp0] at hq
        exact Option.noConfusion hq
    · intro m hm
      simp only [markChecked, hm0] at hm
      exact Option.noConfusion hm
  · obtain ⟨h1, h2⟩ := hi d1
    constructor
    · intro q hq
      simp only [markChecked] at hq
      rw [objGet_plainSet_other _ _ _ _ hd] at hq
      obtain ⟨b1, b2, b3, b4⟩ := h1 q hq
      exact ⟨b1, setHas_setAdd_of_setHas _ _ _ b2, b3, b4⟩
    · intro m hm
      exact setHas_setAdd_of_setHas _ _ _ (h2 m hm)

theorem generateCurrentFiles_forgeInv (h : Host) (d : String) (w : World)
    (hi : ForgeInv h.usingTheForge w.known) :
    ForgeInv h.usingTheForge (generateCurrentFiles h d w).2.known := by
  unfold generateCurrentFiles
  split
  · exact hi
  · rename_i hun
    have hun : setHas w.known.CHECKED_DIRS d = false := by simpa using hun
    split
    · exact hi
    · rename_i dir hp
      have hcb := callBrowse_known h dir w
      split
      · rename_i e w1 heq
        rw [heq] at hcb
        simp only at hcb ⊢
        rw [hcb]
        exact hi
      · rename_i fileList w1 heq
        rw [heq] at hcb
        simp only at hcb
        have hk1 : ForgeInv h.usingTheForge
            (dirExistsUpdate fileList.dirs (fileExistsUpdate fileList.files w1.known)) := by
          rw [hcb]
          exact hi.of_same rfl rfl
        have hun1 : setHas (dirExistsUpdate fileList.dirs
            (fileExistsUpdate fileList.files w1.known)).CHECKED_DIRS d = false := by
          rw [hcb]
          exact hun
        dsimp only
        split
        · rename_i hforge
          rw [hforge] at hk1 ⊢
          split
          · exact hk1.after_bazaar d fileList.files hun1
          · have hfs := (forgeStatusUser_known h (World.mk
              (dirExistsUpdate fileList.dirs (fileExistsUpdate fileList.files w1.known))
              w1.browseLog w1.statusCalls)).1
            split
            · rename_i e w2 heq2
              rw [heq2] at hfs
              simp only at hfs ⊢
              rw [hfs]
              exact hk1
            · rename_i u w2 heq2
              rw [heq2] at hfs
              simp only at hfs ⊢
              rw [hfs]
              exact hk1.after_scan_url d _ hun1 (forge_prefix_ne_empty u dir.current)
        · exact hk1.after_markChecked d

theorem getForgeUrl_known_eq (h : Host) (d f : String) (w : World) :
    (getForgeUrl h d f w).2.known = (generateCurrentFiles h d w).2.known := by
  cases hc : setHas w.known.CHECKED_DIRS d with
  | true =>
    rw [generateCurrentFiles_checked h d w hc]
    exact (getForgeUrl_checked_frame h d f w hc).1
  | false =>
    cases hr : generateCurrentFiles h d w with
    | mk r w1 =>
      have hs : (if !setHas w.known.CHECKED_DIRS d then generateCurrentFiles h d w
          else (.ok (), w)) = (r, w1) := by
        simp [hc, hr]
      cases r with
      | error e => rw [getForgeUrl_scan_failed h d f w w1 e hs]
      | ok v =>
        rcases getForgeUrl_snd_cases h d f w w1 hs with hk | hk
        · rw [hk]
        · rw [hk]
          exact (forgeStatusUser_known h w1).1

theorem getFileUrl_known_cases (h : Host) (d f : String) (w : World) :
    (getFileUrl h d f w).2.known = w.known ∨
      (getFileUrl h d f w).2.known = (generateCurrentFiles h d w).2.known := by
  cases hu : h.usingTheForge with
  | false => exact Or.inl (getFileUrl_frame h d f w (Or.inl hu)).1
  | true =>
    right
    have h2 : (getFileUrl h d f w).2 = (getForgeUrl h d f w).2 := by
      rw [getFileUrl_snd]
      unfold getFileUrlTry
      simp only [hu, if_true]
      split <;> simp_all
    rw [h2]
    exact getForgeUrl_known_eq h d f w

theorem fileExists_snd_cases (h : Host) (d f : String) (w : World) :
    (fileExists h d f w).2 = (getFileUrl h d f w).2 ∨
      (fileExists h d f w).2 = (generateCurrentFiles h d (getFileUrl h d f w).2).2 := by
  unfold fileExists
  split
  · rename_i heq
    rw [heq]
    exact Or.inl rfl
  · rename_i u w1 heq
    rw [heq]
    split
    · exact Or.inl rfl
    · right
      split <;> (rename_i heq2; rw [heq2])

theorem getFileUrl_forgeInv (h : Host) (d f : String) (w : World)
    (hi : ForgeInv h.usingTheForge w.known) :
    ForgeInv h.usingTheForge (getFileUrl h d f w).2.known := by
  rcases getFileUrl_known_cases h d f w with hk | hk
  · rw [hk]
    exact hi
  · rw [hk]
    exact generateCurrentFiles_forgeInv h d w hi

theorem Op.run_forgeInv (h : Host) (op : Op) (w : World)
    (hi : ForgeInv h.usingTheForge w.known) :
    ForgeInv h.usingTheForge (op.run h w).known := by
  cases op with
  | fileExistsUpdate l => exact hi.of_same rfl rfl
  | dirExistsUpdate l => exact hi.of_same rfl rfl
  | doesDirExist d =>
    have := doesDirExist_known h d w
    simp only [Op.run, this]
    exact hi
  | generateCurrentFiles d => exact generateCurrentFiles_forgeInv h d w hi
  | getForgeUrl d f =>
    simp only [Op.run, getForgeUrl_known_eq]
    exact generateCurrentFiles_forgeInv h d w hi
  | getFileUrl d f => exact getFileUrl_forgeInv h d f w hi
  | fileExists d f =>
    simp only [Op.run]
    rcases fileExists_snd_cases h d f w with hk | hk
    · rw [hk]
      exact getFileUrl_forgeInv h d f w hi
    · rw [hk]
      exact generateCurrentFiles_forgeInv h d _ (getFileUrl_forgeInv h d f w hi)

theorem runOps_forgeInv (h : Host) (ops : List Op) (w : World)
    (hi : ForgeInv h.usingTheForge w.known) :
    ForgeInv h.usingTheForge (runOps h ops w).known := by
  induction ops generalizing w with
  | nil => exact hi
  | cons op ops ih => exact ih (op.run h w) (Op.run_forgeInv h op w hi)

theorem forgeInv_empty (b : Bool) : ForgeInv b emptyWorld.known := by
  intro d
  constructor
  · intro p hp
    simp [emptyWorld, objGet, List.lookup] at hp
  · intro m hm
    simp [emptyWorld, objGet, List.lookup] at hm

/-! ## C12: no directory reference has both Forge entries -/

/-- C12: in every cache state reached from all-empty caches by any sequence of
`FileHelper` operations, on any host (so with any outcomes of `browse` and of the
identity lookup), no directory reference has both an entry in
`FORGE.TARGET_URL_PREFIX` and an entry in `FORGE.TARGETS`. -/
theorem forge_entries_exclusive (h : Host) (ops : List Op) (log : List BrowseCall) (n : Nat)
    (d : String) :
    ¬ ((objGet (runOps h ops (World.mk emptyWorld.known log n)).known.FORGE.TARGET_URL_PREFIX
          d).isSome = true ∧
        (objGet (runOps h ops (World.mk emptyWorld.known log n)).known.FORGE.TARGETS
          d).isSome = true) := by
  have hi := runOps_forgeInv h ops (World.mk emptyWorld.known log n) (forgeInv_empty _)
  rintro ⟨hp, hm⟩
  obtain ⟨p, hp1⟩ := Option.isSome_iff_exists.mp hp
  have := ((hi d).1 p hp1).2.2.1
  rw [this] at hm
  exact Bool.noConfusion hm

/-! ## C18: the file map of a bazaar listing -/

theorem bazaarMap_get (files : List String) (m0 : List (String × String)) (b : String)
    (hb : b ≠ "__proto__") :
    objGet (bazaarMap files m0) b
      = ((files.filter (fun x => lastSegment x == b)).getLast?).or (objGet m0 b) := by
  induction files generalizing m0 with
  | nil => simp [bazaarMap]
  | cons x xs ih =>
    have hunf : bazaarMap (x :: xs) m0 = bazaarMap xs (plainSet m0 (lastSegment x) x) := rfl
    rw [hunf, ih]
    by_cases hx : lastSegment x = b
    · have hf : (x :: xs).filter (fun y => lastSegment y == b)
          = x :: xs.filter (fun y => lastSegment y == b) := by
        simp [List.filter_cons, hx]
      have hself : objGet (plainSet m0 (lastSegment x) x) b = some x := by
        rw [← hx]
        exact objGet_plainSet_self _ _ _ (hx ▸ hb)
      rw [hf, List.getLast?_cons, hself]
      cases (xs.filter (fun y => lastSegment y == b)).getLast? <;> simp
    · have hf : (x :: xs).filter (fun y => lastSegment y == b)
          = xs.filter (fun y => lastSegment y == b) := by
        simp [List.filter_cons, hx]
      rw [hf, objGet_plainSet_other _ _ _ _ (fun hh => hx hh.symm)]

theorem generateCurrentFiles_forge_bazaar (h : Host) (d : String) (w : World) (dir : Dir)
    (L : Listing) (hforge : h.usingTheForge = true)
    (hun : setHas w.known.CHECKED_DIRS d = false) (hp : h.parse d = .ok dir)
    (hb : h.browse w.browseLog.length dir.activeSource dir.current dir.bucket = .ok L)
    (hbz : L.bazaar = true) :
    generateCurrentFiles h d w
      = (.ok (), World.mk
          (markChecked d (bazaarTargets d L.files
            (dirExistsUpdate L.dirs (fileExistsUpdate L.files w.known))))
          (w.browseLog ++ [⟨dir.activeSource, dir.current, dir.bucket, false⟩])
          w.statusCalls) := by
  simp [generateCurrentFiles, hun, hp, callBrowse, hb, hforge, hbz, logBrowse]

theorem lastSegment_empty : lastSegment "" = "" := by decide

theorem getForgeUrl_of_target (h : Host) (d f : String) (w w1 : World)
    (m : List (String × String)) (t : String)
    (hscan : (if !setHas w.known.CHECKED_DIRS d then generateCurrentFiles h d w
      else (.ok (), w)) = (.ok (), w1))
    (hm : objGet w1.known.FORGE.TARGETS d = some m) (ht : objGet m f = some t)
    (hne : t ≠ "") :
    getForgeUrl h d f w = (.ok (.str t), w1) := by
  unfold getForgeUrl
  simp only [hscan, targetsGet, bazaarTargetOf, plainGet, hm, ht]
  simp [truthy, hne]

theorem getFileUrl_of_forgeUrl (h : Host) (d f : String) (w w1 : World) (u : JSVal)
    (hforge : h.usingTheForge = true) (hu : getForgeUrl h d f w = (.ok u, w1)) :
    getFileUrl h d f w = (.ok u, w1) := by
  simp [getFileUrl, getFileUrlTry, hforge, hu]

theorem fileExists_of_known_url (h : Host) (d f : String) (w w1 : World) (u : JSVal)
    (hu : getFileUrl h d f w = (.ok u, w1)) (hin : setHasVal w1.known.FILES u = true) :
    fileExists h d f w = (.ok true, w1) := by
  simp [fileExists, hu, hin]

/-- What the scan of a bazaar listing does for every file name but `__proto__`: on
the Forge, for every `d` not in `CHECKED_DIRS` whose `browse` returns a bazaar
listing `L`, and every path `q` of `L.files` whose last segment `b` is neither empty
nor `__proto__`, the last path `t` of `L.files` with last segment `b` exists, after
the scan `FORGE.TARGETS[d][b]` is `t`, `t` is in `KNOWN.FILES`, and `fileExists(d, b)`
returns `true`, both when it runs that scan itself and when called after it. -/
theorem bazaar_scan_targets (h : Host) (d : String) (w : World) (dir : Dir) (L : Listing)
    (q : String)
    (hforge : h.usingTheForge = true)
    (hun : setHas w.known.CHECKED_DIRS d = false) (hp : h.parse d = .ok dir)
    (hb : h.browse w.browseLog.length dir.activeSource dir.current dir.bucket = .ok L)
    (hbz : L.bazaar = true) (hq : q ∈ L.files) (hne : lastSegment q ≠ "")
    (hproto : lastSegment q ≠ "__proto__") :
    ∃ t m,
      (L.files.filter (fun x => lastSegment x == lastSegment q)).getLast? = some t ∧
        t ∈ L.files ∧ lastSegment t = lastSegment q ∧
        (generateCurrentFiles h d w).1 = .ok () ∧
        objGet (generateCurrentFiles h d w).2.known.FORGE.TARGETS d = some m ∧
        objGet m (lastSegment q) = some t ∧
        setHas (generateCurrentFiles h d w).2.known.FILES t = true ∧
        (fileExists h d (lastSegment q) w).1 = .ok true ∧
        (fileExists h d (lastSegment q) (generateCurrentFiles h d w).2).1 = .ok true := by
  have hg := generateCurrentFiles_forge_bazaar h d w dir L hforge hun hp hb hbz
  have hqf : q ∈ L.files.filter (fun x => lastSegment x == lastSegment q) := by
    simp [List.mem_filter, hq]
  cases hlast : (L.files.filter (fun x => lastSegment x == lastSegment q)).getLast? with
  | none =>
    rw [List.getLast?_eq_none_iff] at hlast
    rw [hlast] at hqf
    simp at hqf
  | some t =>
    have htm := List.mem_of_getLast?_eq_some hlast
    rw [List.mem_filter] at htm
    obtain ⟨htL, hts⟩ := htm
    have hts : lastSegment t = lastSegment q := by simpa using hts
    have htne : t ≠ "" := by
      intro h0
      rw [h0, lastSegment_empty] at hts
      exact hne hts.symm
    obtain ⟨a1, -, -, -, -, a6⟩ := bazaarTargets_spec d L.files
      (dirExistsUpdate L.dirs (fileExistsUpdate L.files w.known))
    have hget : objGet (bazaarMap L.files []) (lastSegment q) = some t := by
      rw [bazaarMap_get _ _ _ hproto, hlast]
      rfl
    have hfiles : setHas (generateCurrentFiles h d w).2.known.FILES t = true := by
      rw [hg]
      simp only [markChecked, a6]
      rw [setHas_iff_mem, mem_foldl_setAdd]
      exact Or.inr htL
    have htargets : objGet (generateCurrentFiles h d w).2.known.FORGE.TARGETS d
        = some (bazaarMap L.files []) := by
      rw [hg]
      exact a1
    have hchecked := generateCurrentFiles_ok_checked h d w _ hg
    refine ⟨t, bazaarMap L.files [], rfl, htL, hts, by rw [hg], htargets, hget, hfiles, ?_, ?_⟩
    · have hscan : (if !setHas w.known.CHECKED_DIRS d then generateCurrentFiles h d w
          else (.ok (), w)) = (.ok (), (generateCurrentFiles h d w).2) := by
        simp only [hun, Bool.not_false, if_true]
        rw [hg]
      have h1 := getForgeUrl_of_target h d (lastSegment q) w _ _ t hscan htargets hget htne
      have h2 := getFileUrl_of_forgeUrl h d (lastSegment q) w _ _ hforge h1
      rw [fileExists_of_known_url h d (lastSegment q) w _ _ h2 hfiles]
    · have hc2 : setHas (generateCurrentFiles h d w).2.known.CHECKED_DIRS d = true := by
        rw [hg]
        exact hchecked
      have hscan : (if !setHas (generateCurrentFiles h d w).2.known.CHECKED_DIRS d
          then generateCurrentFiles h d (generateCurrentFiles h d w).2
          else (.ok (), (generateCurrentFiles h d w).2))
          = (.ok (), (generateCurrentFiles h d w).2) := by
        simp only [hc2, Bool.not_true, Bool.false_eq_true, if_false]
      have h1 := getForgeUrl_of_target h d (lastSegment q) _ _ _ t hscan htargets hget htne
      have h2 := getFileUrl_of_forgeUrl h d (lastSegment q) _ _ _ hforge h1
      rw [fileExists_of_known_url h d (lastSegment q) _ _ _ h2 hfiles]

/-- The instance of `bazaar_scan_targets` at a bazaar listing with two files named
`a.png`: the later one is the target, and `fileExists` finds it. -/
theorem bazaar_scan_targets_example :
    lastSegment "modules/pack/a.png" = "a.png" ∧
      (generateCurrentFiles bazaarHost "modules" emptyWorld).2.known.FORGE.TARGETS
        = [("modules", [("a.png", "modules/other/a.png"), ("b.png", "modules/pack/b.png")])] ∧
      ∃ t m,
        (["modules/pack/a.png", "modules/other/a.png", "modules/pack/b.png"].filter
            (fun x => lastSegment x == lastSegment "modules/pack/a.png")).getLast? = some t ∧
          t ∈ ["modules/pack/a.png", "modules/other/a.png", "modules/pack/b.png"] ∧
          lastSegment t = lastSegment "modules/pack/a.png" ∧
          (generateCurrentFiles bazaarHost "modules" emptyWorld).1 = .ok () ∧
          objGet (generateCurrentFiles bazaarHost "modules" emptyWorld).2.known.FORGE.TARGETS
            "modules" = some m ∧
          objGet m (lastSegment "modules/pack/a.png") = some t ∧
          setHas (generateCurrentFiles bazaarHost "modules" emptyWorld).2.known.FILES t = true ∧
          (fileExists bazaarHost "modules" (lastSegment "modules/pack/a.png") emptyWorld).1
            = .ok true ∧
          (fileExists bazaarHost "modules" (lastSegment "modules/pack/a.png")
            (generateCurrentFiles bazaarHost "modules" emptyWorld).2).1 = .ok true :=
  ⟨by decide, rfl,
    bazaar_scan_targets bazaarHost "modules" emptyWorld ⟨"data", "modules", ""⟩
      ⟨["modules/pack/a.png", "modules/other/a.png", "modules/pack/b.png"], [], true⟩
      "modules/pack/a.png" rfl rfl rfl rfl rfl (by decide) (by decide) (by decide)⟩

/-- C18 fails on the code for a file named `__proto__`: on the Forge, after the scan
of a bazaar listing that holds `modules/pack/__proto__`, the path is in
`KNOWN.FILES` but the assignment of line 82 has stored nothing in the file map,
`getFileUrl` resolves the name to `Object.prototype`, which reading `__proto__` from
the file map gives, and `fileExists` returns `false`. -/
theorem bazaar_scan_misses_proto_name :
    protoNameHost.parse "modules"  = .ok ⟨"data", "modules", ""⟩ ∧
      setHas emptyWorld.known.CHECKED_DIRS "modules" = false ∧
      lastSegment "modules/pack/__proto__" = "__proto__" ∧
      (generateCurrentFiles protoNameHost "modules" emptyWorld).1 = .ok () ∧
      (generateCurrentFiles protoNameHost "modules" emptyWorld).2.known.FORGE.TARGETS
        = [("modules", [("a.png", "modules/pack/a.png")])] ∧
      (generateCurrentFiles protoNameHost "modules" emptyWorld).2.known.FILES
        = ["modules/pack/__proto__", "modules/pack/a.png"] ∧
      (getFileUrl protoNameHost "modules" "__proto__" emptyWorld).1
        = .ok (.foreign true "[object Object]") ∧
      (fileExists protoNameHost "modules" "__proto__" emptyWorld).1 = .ok false ∧
      (fileExists protoNameHost "modules" "__proto__"
        (generateCurrentFiles protoNameHost "modules" emptyWorld).2).1 = .ok false ∧
      (fileExists protoNameHost "modules" "a.png" emptyWorld).1 = .ok true := by
  refine ⟨?_, ?_, ?_, ?_, ?_, ?_, ?_, ?_, ?_, ?_⟩ <;> rfl

/-! ## C14: the fallback URL of a bazaar directory -/

/-- C14, as stated, fails. On the Forge, after a bazaar listing that has no file
named `a.png`, a `forgevtt` reference resolves `a.png` to the per-user URL and a
`forge-bazaar` reference to `undefined`, not to the templated bazaar URL. For a
local reference, the name `constructor`, which the
listing does not hold either, resolves to the function that the file map inherits
from `Object.prototype`; and a local reference that is itself named `constructor`
resolves `a.png` through the function that `TARGET_URL_PREFIX` inherits. -/
theorem bazaar_fallback_depends_on_source :
    (bazaarSourceHost "forgevtt").parse "icons" = .ok ⟨"forgevtt", "icons", ""⟩ ∧
      (getFileUrl (bazaarSourceHost "forgevtt") "icons" "a.png" emptyWorld).2.known.FORGE.TARGETS
        = [("icons", [("b.png", "icons/b.png")])] ∧
      objGet [("b.png", "icons/b.png")] "a.png" = none ∧
      (getFileUrl (bazaarSourceHost "forgevtt") "icons" "a.png" emptyWorld).1
        = .ok (.str "https://assets.forge-vtt.com/u1/icons/a.png") ∧
      "https://assets.forge-vtt.com/bazaar/" ++ "icons" ++ "/" ++ "a.png"
        = "https://assets.forge-vtt.com/bazaar/icons/a.png" ∧
      (getFileUrl (bazaarSourceHost "forge-bazaar") "icons" "a.png"
          emptyWorld).2.known.FORGE.TARGETS
        = [("icons", [("b.png", "icons/b.png")])] ∧
      (getFileUrl (bazaarSourceHost "forge-bazaar") "icons" "a.png" emptyWorld).1
        = .ok .undefined ∧
      (bazaarSourceHost "data").parse "icons" = .ok ⟨"data", "icons", ""⟩ ∧
      objGet [("b.png", "icons/b.png")] "constructor" = none ∧
      (getFileUrl (bazaarSourceHost "data") "icons" "constructor" emptyWorld).1
        = .ok (.foreign true "function Object() \x7b [native code] \x7d") ∧
      (getFileUrl (bazaarSourceHost "data") "constructor" "a.png" emptyWorld).2.known.FORGE
        = { TARGETS := [("constructor", [("b.png", "icons/b.png")])], TARGET_URL_PREFIX := [] } ∧
      (getFileUrl (bazaarSourceHost "data") "constructor" "a.png" emptyWorld).1
        = .ok (.str "function Object() \x7b [native code] \x7d/a.png") := by
  refine ⟨?_, ?_, ?_, ?_, ?_, ?_, ?_, ?_, ?_, ?_, ?_, ?_⟩ <;> rfl

theorem plainGet_of_none (h : Host) (o : List (String × String)) (key : String)
    (hn : objGet o key = none) : plainGet h o key = plainGet h [] key := by
  have h0 : objGet ([] : List (String × String)) key = none := rfl
  simp only [plainGet, hn, h0]

theorem scan_step_eq (h : Host) (d : String) (w : World)
    (hscan : (generateCurrentFiles h d w).1 = .ok ()) :
    (if !setHas w.known.CHECKED_DIRS d then generateCurrentFiles h d w else (.ok (), w))
      = (.ok (), (generateCurrentFiles h d w).2) := by
  cases hc : setHas w.known.CHECKED_DIRS d with
  | true => simp [generateCurrentFiles_checked h d w hc]
  | false =>
    simp only [Bool.not_false, if_true]
    exact Prod.ext hscan rfl

theorem getForgeUrl_fallback_data (h : Host) (d f : String) (w w1 : World) (dir : Dir)
    (m : List (String × String))
    (hscan : (if !setHas w.known.CHECKED_DIRS d then generateCurrentFiles h d w
      else (.ok (), w)) = (.ok (), w1))
    (hpfx : truthy (plainGet h w1.known.FORGE.TARGET_URL_PREFIX d) = false)
    (hm : objGet w1.known.FORGE.TARGETS d = some m)
    (habs : truthy (plainGet h m f) = false)
    (hp : h.parse d = .ok dir) (hsrc : dir.activeSource = "data") :
    getForgeUrl h d f w
      = (.ok (.str ("https://assets.forge-vtt.com/bazaar/" ++ dir.current ++ "/" ++ f)), w1) := by
  unfold getForgeUrl
  simp only [hscan, targetsGet, bazaarTargetOf, hm, habs, hpfx]
  simp [hp, hsrc]

/-- C14, amended: on the Forge, in every cache state reached from empty caches, for
every directory reference `d` that parses to the local source (`activeSource`
`"data"`) with current path `p`, names no member of `Object.prototype` and has a
file map `FORGE.TARGETS[d]` once it is listed (its listing is a bazaar listing), and
for every filename `f` for which `FORGE.TARGETS[d][f]` is `undefined` (`f` is absent
from the file map and names no member of `Object.prototype`), `getFileUrl(d, f)`
resolves to `"https://assets.forge-vtt.com/bazaar/" + p + "/" + f`, whether the call
lists `d` itself or `d` was listed before. -/
theorem bazaar_fallback_url (h : Host) (d f : String) (w : World) (dir : Dir)
    (m : List (String × String))
    (hreach : ∃ ops log n, w = runOps h ops (World.mk emptyWorld.known log n))
    (hforge : h.usingTheForge = true)
    (hp : h.parse d = .ok dir) (hsrc : dir.activeSource = "data")
    (hd : plainGet h [] d = .undefined)
    (hscan : (generateCurrentFiles h d w).1 = .ok ())
    (hmap : objGet (generateCurrentFiles h d w).2.known.FORGE.TARGETS d = some m)
    (habs : plainGet h m f = .undefined) :
    getFileUrl h d f w
      = (.ok (.str ("https://assets.forge-vtt.com/bazaar/" ++ dir.current ++ "/" ++ f)),
          (generateCurrentFiles h d w).2) := by
  obtain ⟨ops, log, n, hw⟩ := hreach
  have hi : ForgeInv true w.known := by
    have := runOps_forgeInv h ops (World.mk emptyWorld.known log n) (forgeInv_empty _)
    rw [hforge, ← hw] at this
    exact this
  have hi1 : ForgeInv true (generateCurrentFiles h d w).2.known := by
    have := generateCurrentFiles_forgeInv h d w (by rw [hforge]; exact hi)
    rw [hforge] at this
    exact this
  have hnone : objGet (generateCurrentFiles h d w).2.known.FORGE.TARGET_URL_PREFIX d = none := by
    cases hq : objGet (generateCurrentFiles h d w).2.known.FORGE.TARGET_URL_PREFIX d with
    | none => rfl
    | some p =>
      have := ((hi1 d).1 p hq).2.2.1
      rw [hmap] at this
      exact Option.noConfusion this
  have hpfx : truthy (plainGet h (generateCurrentFiles h d w).2.known.FORGE.TARGET_URL_PREFIX d)
      = false := by
    rw [plainGet_of_none h _ d hnone, hd]
    rfl
  have habs2 : truthy (plainGet h m f) = false := by
    rw [habs]
    rfl
  exact getFileUrl_of_forgeUrl h d f w _ _ hforge
    (getForgeUrl_fallback_data h d f w _ dir m (scan_step_eq h d w hscan) hpfx hmap habs2 hp hsrc)

/-- The instances of `bazaar_fallback_url` at a bazaar listing of a local reference
that has no file named `c.png`: in the call that lists the directory, and in a call
made when it has been listed. -/
theorem bazaar_fallback_url_witness :
    getFileUrl bazaarHost "modules" "c.png" emptyWorld
        = (.ok (.str ("https://assets.forge-vtt.com/bazaar/" ++ "modules" ++ "/" ++ "c.png")),
            (generateCurrentFiles bazaarHost "modules" emptyWorld).2) ∧
      getFileUrl bazaarHost "modules" "c.png"
          (runOps bazaarHost [.fileExists "modules" "a.png"] (World.mk emptyWorld.known [] 0))
        = (.ok (.str ("https://assets.forge-vtt.com/bazaar/" ++ "modules" ++ "/" ++ "c.png")),
            (generateCurrentFiles bazaarHost "modules"
              (runOps bazaarHost [.fileExists "modules" "a.png"]
                (World.mk emptyWorld.known [] 0))).2) :=
  ⟨bazaar_fallback_url bazaarHost "modules" "c.png" emptyWorld ⟨"data", "modules", ""⟩
      [("a.png", "modules/other/a.png"), ("b.png", "modules/pack/b.png")]
      ⟨[], [], 0, rfl⟩ rfl rfl rfl rfl rfl rfl rfl,
    bazaar_fallback_url bazaarHost "modules" "c.png"
      (runOps bazaarHost [.fileExists "modules" "a.png"] (World.mk emptyWorld.known [] 0))
      ⟨"data", "modules", ""⟩
      [("a.png", "modules/other/a.png"), ("b.png", "modules/pack/b.png")]
      ⟨[.fileExists "modules" "a.png"], [], 0, rfl⟩ rfl rfl rfl rfl rfl rfl rfl⟩

/-! ## C15: the identity lookup and the URL prefix -/

/-- C15, as stated, fails. On the Forge, when the first identity lookup throws, the
scan fails before `TARGET_URL_PREFIX[d]` is written and before `d` is checked, so
the next `getFileUrl(d, f)` looks the identity up again: two lookups. Off the
Forge `FileHelper` caches nothing: on a host whose `ForgeAPI.lastStatus` stays
unset, each `getFileUrl(d, f)` of a `forgevtt` reference makes a lookup. And for the
directory reference `constructor`, with `TARGET_URL_PREFIX[d]` set, the filename
`name` resolves to `"Object"`, the name of the function that `TARGETS` inherits
under that key, not to the prefix followed by `/name`. -/
theorem identity_lookup_repeated :
    emptyWorld.statusCalls = 0 ∧
      (getFileUrl retryHost "icons" "a.png" emptyWorld).1
        = .error (resolutionError "icons" "a.png") ∧
      (getFileUrl retryHost "icons" "a.png" emptyWorld).2.statusCalls = 1 ∧
      (getFileUrl retryHost "icons" "a.png"
          (getFileUrl retryHost "icons" "a.png" emptyWorld).2).1
        = .ok (.str "https://assets.forge-vtt.com/u1/icons/a.png") ∧
      (runOps retryHost [.getFileUrl "icons" "a.png", .getFileUrl "icons" "a.png"]
        emptyWorld).statusCalls = 2 ∧
      (runOps forgetfulHost [.getFileUrl "icons" "a.png", .getFileUrl "icons" "a.png"]
        emptyWorld).statusCalls = 2 ∧
      (runOps forgetfulHost [.getFileUrl "icons" "a.png", .getFileUrl "icons" "a.png"]
        emptyWorld).known.FORGE.TARGET_URL_PREFIX = [] ∧
      (runOps forgeProxyHost [.getFileUrl "constructor" "a.png"]
        emptyWorld).known.FORGE.TARGET_URL_PREFIX
        = [("constructor", "https://assets.forge-vtt.com/u1/icons")] ∧
      (getFileUrl forgeProxyHost "constructor" "name"
        (runOps forgeProxyHost [.getFileUrl "constructor" "a.png"] emptyWorld)).1
        = .ok (.str "Object") := by
  refine ⟨?_, ?_, ?_, ?_, ?_, ?_, ?_, ?_, ?_⟩ <;> rfl

theorem getFileUrl_snd_forge (h : Host) (d f : String) (w : World)
    (hforge : h.usingTheForge = true) :
    (getFileUrl h d f w).2 = (getForgeUrl h d f w).2 := by
  rw [getFileUrl_snd]
  unfold getFileUrlTry
  simp only [hforge, if_true]
  split <;> simp_all

theorem getForgeUrl_snd_of_url (h : Host) (d f : String) (w w1 : World)
    (hscan : (if !setHas w.known.CHECKED_DIRS d then generateCurrentFiles h d w
      else (.ok (), w)) = (.ok (), w1))
    (hpfx : truthy (plainGet h w1.known.FORGE.TARGET_URL_PREFIX d) = true) :
    (getForgeUrl h d f w).2 = w1 := by
  unfold getForgeUrl
  simp only [hscan, hpfx, if_true]
  split
  · rfl
  · split <;> rfl

theorem getForgeUrl_of_url (h : Host) (d f : String) (w w1 : World) (p : String)
    (hscan : (if !setHas w.known.CHECKED_DIRS d then generateCurrentFiles h d w
      else (.ok (), w)) = (.ok (), w1))
    (hm : w1.known.FORGE.TARGETS = [])
    (hd : plainGet h [] d = .undefined)
    (hpfx : objGet w1.known.FORGE.TARGET_URL_PREFIX d = some p) (hne : p ≠ "") :
    getForgeUrl h d f w = (.ok (.str (p ++ "/" ++ f)), w1) := by
  have h0 : objGet ([] : List (String × List (String × String))) d = none := rfl
  have h1 : objGet ([] : List (String × List (String × String))) "__proto__" = none := rfl
  unfold getForgeUrl
  simp only [hscan, hm, targetsGet, bazaarTargetOf, h0, h1, Option.getD_none, hd]
  simp [truthy, plainGet, hpfx, hne, jsToString]

theorem IdentityOnce.after_scan (h : Host) (d : String) (w : World)
    (hforge : h.usingTheForge = true)
    (hstd : ∀ n a b c L, h.browse n a b c = .ok L → L.bazaar = false)
    (hnofail : ∀ n, ∃ u, h.status n = .ok u)
    (hi : IdentityOnce h d w) : IdentityOnce h d (generateCurrentFiles h d w).2 := by
  cases hc : setHas w.known.CHECKED_DIRS d with
  | true =>
    rw [generateCurrentFiles_checked h d w hc]
    exact hi
  | false =>
    obtain ⟨i1, i2, i3, i4⟩ := hi
    have hs0 := i3 hc
    cases hp : h.parse d with
    | error e =>
      have : generateCurrentFiles h d w = (.error e, w) := by
        simp [generateCurrentFiles, hc, hp]
      rw [this]
      exact ⟨i1, i2, i3, i4⟩
    | ok dir =>
      cases hb : h.browse w.browseLog.length dir.activeSource dir.current dir.bucket with
      | error e =>
        have : generateCurrentFiles h d w = (.error e, logBrowse w dir true) := by
          simp [generateCurrentFiles, hc, hp, callBrowse, hb]
        rw [this]
        exact ⟨i1, i2, i3, i4⟩
      | ok L =>
        have hbz := hstd _ _ _ _ L hb
        cases hls : h.lastStatus w.statusCalls with
        | error e =>
          have : generateCurrentFiles h d w
              = (.error e, World.mk (dirExistsUpdate L.dirs (fileExistsUpdate L.files w.known))
                  (w.browseLog ++ [⟨dir.activeSource, dir.current, dir.bucket, false⟩])
                  w.statusCalls) := by
            simp [generateCurrentFiles, hc, hp, callBrowse, hb, hforge, hbz, logBrowse,
              forgeStatusUser, hls]
          rw [this]
          exact ⟨i1, fun hcc => absurd hcc (by simp [dirExistsUpdate, fileExistsUpdate, hc]),
            fun _ => hs0, i4⟩
        | ok st =>
          have hfin : ∃ u n, n ≤ 1 ∧ generateCurrentFiles h d w
              = (.ok (), World.mk (markChecked d
                  (Known.mk (dirExistsUpdate L.dirs (fileExistsUpdate L.files w.known)).FILES
                    (dirExistsUpdate L.dirs (fileExistsUpdate L.files w.known)).DIRS
                    w.known.CHECKED_DIRS
                    (Forge.mk w.known.FORGE.TARGETS
                      (plainSet w.known.FORGE.TARGET_URL_PREFIX d
                        ("https://assets.forge-vtt.com/" ++ u ++ "/" ++ dir.current)))))
                  (w.browseLog ++ [⟨dir.activeSource, dir.current, dir.bucket, false⟩]) n) := by
            cases st with
            | some u =>
              refine ⟨u, w.statusCalls, i4, ?_⟩
              simp [generateCurrentFiles, hc, hp, callBrowse, hb, hforge, hbz, logBrowse,
                forgeStatusUser, hls, dirExistsUpdate, fileExistsUpdate]
            | none =>
              obtain ⟨u, hu⟩ := hnofail w.statusCalls
              refine ⟨u, w.statusCalls + 1, by omega, ?_⟩
              simp [generateCurrentFiles, hc, hp, callBrowse, hb, hforge, hbz, logBrowse,
                forgeStatusUser, hls, hu, dirExistsUpdate, fileExistsUpdate]
          obtain ⟨u, n, hn, hfin⟩ := hfin
          rw [hfin]
          refine ⟨i1, fun _ => truthy_plainGet_plainSet h _ d _
              (forge_prefix_ne_empty u dir.current), fun hcc => ?_, hn⟩
          simp [markChecked, setHas_setAdd] at hcc

theorem IdentityOnce.forgeUrl_snd (h : Host) (d f : String) (w : World)
    (hforge : h.usingTheForge = true)
    (hstd : ∀ n a b c L, h.browse n a b c = .ok L → L.bazaar = false)
    (hnofail : ∀ n, ∃ u, h.status n = .ok u)
    (hi : IdentityOnce h d w) :
    (getForgeUrl h d f w).2 = (generateCurrentFiles h d w).2 := by
  have hafter := IdentityOnce.after_scan h d w hforge hstd hnofail hi
  cases hr : generateCurrentFiles h d w with
  | mk r w1 =>
    rw [hr] at hafter
    cases r with
    | error e =>
      cases hc : setHas w.known.CHECKED_DIRS d with
      | true =>
        rw [generateCurrentFiles_checked h d w hc] at hr
        simp at hr
      | false =>
        unfold getForgeUrl
        simp [hc, hr]
    | ok v =>
      have hchecked := generateCurrentFiles_ok_checked h d w w1 hr
      obtain ⟨-, j2, -, -⟩ := hafter
      have hscan : (if !setHas w.known.CHECKED_DIRS d then generateCurrentFiles h d w
          else (.ok (), w)) = (.ok (), w1) := by
        rw [scan_step_eq h d w (by rw [hr]), hr]
      exact getForgeUrl_snd_of_url h d f w w1 hscan (j2 hchecked)

theorem generateCurrentFiles_offForge_statusCalls (h : Host) (d : String) (w : World)
    (hf : h.usingTheForge = false) :
    (generateCurrentFiles h d w).2.statusCalls = w.statusCalls := by
  unfold generateCurrentFiles
  split
  · rfl
  · split
    · rfl
    · rename_i dir hp
      have hcb : (callBrowse h dir w).2.statusCalls = w.statusCalls := by
        unfold callBrowse
        split <;> rfl
      split
      · rename_i heq
        rw [heq] at hcb
        exact hcb
      · rename_i heq
        rw [heq] at hcb
        simp only [hf, Bool.false_eq_true, if_false]
        exact hcb

theorem getFileUrl_offForge_snd (h : Host) (d f : String) (w : World)
    (hf : h.usingTheForge = false) :
    (getFileUrl h d f w).2 = w ∨ (getFileUrl h d f w).2 = (forgeStatusUser h w).2 := by
  rw [getFileUrl_snd]
  unfold getFileUrlTry
  simp only [hf, Bool.false_eq_true, if_false]
  split
  · exact Or.inl rfl
  · split
    · exact Or.inl rfl
    · split
      · right
        split <;> (rename_i heq; rw [heq])
      · split
        · split <;> exact Or.inl rfl
        · exact Or.inl rfl

theorem forgeStatusUser_remembered (h : Host) (w : World)
    (hmem : ∀ n, 0 < n → ∃ u, h.lastStatus n = .ok (some u))
    (hle : w.statusCalls ≤ 1) : (forgeStatusUser h w).2.statusCalls ≤ 1 := by
  unfold forgeStatusUser
  split
  · exact hle
  · exact hle
  · rename_i hnone
    by_cases h0 : w.statusCalls = 0
    · simp [h0]
    · obtain ⟨u, hu⟩ := hmem w.statusCalls (by omega)
      rw [hu] at hnone
      simp at hnone

theorem identityOnce_empty (h : Host) (d : String) (log : List BrowseCall) :
    IdentityOnce h d (World.mk emptyWorld.known log 0) := by
  refine ⟨rfl, ?_, fun _ => rfl, by simp⟩
  intro hc
  simp [emptyWorld, setHas] at hc

theorem IdentityOnce.after_calls (h : Host) (d : String)
    (hforge : h.usingTheForge = true)
    (hstd : ∀ n a b c L, h.browse n a b c = .ok L → L.bazaar = false)
    (hnofail : ∀ n, ∃ u, h.status n = .ok u) (ops : List Op) (w : World)
    (hops : ∀ op ∈ ops, ∃ f, op = Op.getFileUrl d f ∨ op = Op.fileExists d f)
    (hi : IdentityOnce h d w) : IdentityOnce h d (runOps h ops w) := by
  induction ops generalizing w with
  | nil => exact hi
  | cons op rest ih =>
    have hrest : ∀ op1 ∈ rest, ∃ f, op1 = Op.getFileUrl d f ∨ op1 = Op.fileExists d f :=
      fun op1 h1 => hops op1 (List.mem_cons_of_mem _ h1)
    have hurl : ∀ f, IdentityOnce h d (getFileUrl h d f w).2 := by
      intro f
      rw [getFileUrl_snd_forge h d f w hforge,
        IdentityOnce.forgeUrl_snd h d f w hforge hstd hnofail hi]
      exact IdentityOnce.after_scan h d w hforge hstd hnofail hi
    obtain ⟨f, hop | hop⟩ := hops op (List.mem_cons_self _ _)
    · subst hop
      exact ih _ hrest (hurl f)
    · subst hop
      refine ih _ hrest ?_
      simp only [Op.run]
      rcases fileExists_snd_cases h d f w with hk | hk
      · rw [hk]
        exact hurl f
      · rw [hk]
        exact IdentityOnce.after_scan h d _ hforge hstd hnofail (hurl f)

theorem statusCalls_after_calls (h : Host) (d : String)
    (hf : h.usingTheForge = false)
    (hmem : ∀ n, 0 < n → ∃ u, h.lastStatus n = .ok (some u)) (ops : List Op) (w : World)
    (hops : ∀ op ∈ ops, ∃ f, op = Op.getFileUrl d f ∨ op = Op.fileExists d f)
    (hi : w.statusCalls ≤ 1) : (runOps h ops w).statusCalls ≤ 1 := by
  induction ops generalizing w with
  | nil => exact hi
  | cons op rest ih =>
    have hrest : ∀ op1 ∈ rest, ∃ f, op1 = Op.getFileUrl d f ∨ op1 = Op.fileExists d f :=
      fun op1 h1 => hops op1 (List.mem_cons_of_mem _ h1)
    have hurl : ∀ f, (getFileUrl h d f w).2.statusCalls ≤ 1 := by
      intro f
      rcases getFileUrl_offForge_snd h d f w hf with hk | hk
      · rw [hk]
        exact hi
      · rw [hk]
        exact forgeStatusUser_remembered h w hmem hi
    obtain ⟨f, hop | hop⟩ := hops op (List.mem_cons_self _ _)
    · subst hop
      exact ih _ hrest (hurl f)
    · subst hop
      refine ih _ hrest ?_
      simp only [Op.run]
      rcases fileExists_snd_cases h d f w with hk | hk
      · rw [hk]
        exact hurl f
      · rw [hk, generateCurrentFiles_offForge_statusCalls h d _ hf]
        exact hurl f

/-- C15, amended: for every directory reference `d` whose listings are standard (not
bazaar) ones and every sequence of `getFileUrl` / `fileExists` calls for `d` starting
from empty caches with no identity lookup made yet, if no identity lookup fails and
either the Forge host is active (where `FileHelper` caches the prefix, whatever
`ForgeAPI` remembers) or `ForgeAPI.lastStatus` is set once a lookup has been made,
the identity lookup is invoked at most once; and, when `d` names no member of
`Object.prototype`, once `TARGET_URL_PREFIX[d]` is set `getFileUrl(d, f)` resolves
to `TARGET_URL_PREFIX[d] + "/" + f` for every filename `f` and changes nothing. -/
theorem identity_lookup_once (h : Host) (ops : List Op) (log : List BrowseCall) (d : String)
    (hops : ∀ op ∈ ops, ∃ f, op = Op.getFileUrl d f ∨ op = Op.fileExists d f)
    (hmode : h.usingTheForge = true ∨ ∀ n, 0 < n → ∃ u, h.lastStatus n = .ok (some u))
    (hstd : ∀ n a b c L, h.browse n a b c = .ok L → L.bazaar = false)
    (hnofail : ∀ n, ∃ u, h.status n = .ok u) :
    (runOps h ops (World.mk emptyWorld.known log 0)).statusCalls ≤ 1 ∧
      (plainGet h [] d = .undefined →
        ∀ p f,
          objGet (runOps h ops (World.mk emptyWorld.known log 0)).known.FORGE.TARGET_URL_PREFIX
            d = some p →
          getFileUrl h d f (runOps h ops (World.mk emptyWorld.known log 0))
            = (.ok (.str (p ++ "/" ++ f)), runOps h ops (World.mk emptyWorld.known log 0))) := by
  have hinv := runOps_forgeInv h ops (World.mk emptyWorld.known log 0) (forgeInv_empty _)
  cases hforge : h.usingTheForge with
  | true =>
    have hio := IdentityOnce.after_calls h d hforge hstd hnofail ops _ hops
      (identityOnce_empty h d log)
    refine ⟨hio.2.2.2, ?_⟩
    intro hd p f hp
    obtain ⟨hne, hc, -, -⟩ := (hinv d).1 p hp
    have hscan : (if !setHas (runOps h ops (World.mk emptyWorld.known log 0)).known.CHECKED_DIRS d
        then generateCurrentFiles h d (runOps h ops (World.mk emptyWorld.known log 0))
        else (.ok (), runOps h ops (World.mk emptyWorld.known log 0)))
        = (.ok (), runOps h ops (World.mk emptyWorld.known log 0)) := by
      simp [hc]
    exact getFileUrl_of_forgeUrl h d f _ _ _ hforge
      (getForgeUrl_of_url h d f _ _ p hscan hio.1 hd hp hne)
  | false =>
    have hmem : ∀ n, 0 < n → ∃ u, h.lastStatus n = .ok (some u) := by
      rcases hmode with hm | hm
      · rw [hforge] at hm
        exact Bool.noConfusion hm
      · exact hm
    refine ⟨statusCalls_after_calls h d hforge hmem ops _ hops (by simp), ?_⟩
    intro _ p f hp
    have := ((hinv d).1 p hp).2.2.2
    rw [hforge] at this
    exact Bool.noConfusion this

/-- The instance of `identity_lookup_once` at a Forge host for a `forgevtt` reference:
three calls for the same directory make one identity lookup and then resolve by the
recorded prefix. -/
theorem identity_lookup_once_witness :
    (runOps forgeProxyHost
        [.getFileUrl "icons" "a.png", .fileExists "icons" "b.png", .getFileUrl "icons" "c.png"]
        (World.mk emptyWorld.known [] 0)).statusCalls ≤ 1 ∧
      getFileUrl forgeProxyHost "icons" "d.png"
          (runOps forgeProxyHost
            [.getFileUrl "icons" "a.png", .fileExists "icons" "b.png",
              .getFileUrl "icons" "c.png"]
            (World.mk emptyWorld.known [] 0))
        = (.ok (.str ("https://assets.forge-vtt.com/u1/icons" ++ "/" ++ "d.png")),
            runOps forgeProxyHost
              [.getFileUrl "icons" "a.png", .fileExists "icons" "b.png",
                .getFileUrl "icons" "c.png"]
              (World.mk emptyWorld.known [] 0)) :=
  ⟨(identity_lookup_once forgeProxyHost
      [.getFileUrl "icons" "a.png", .fileExists "icons" "b.png", .getFileUrl "icons" "c.png"]
      [] "icons"
      (by
        intro op hop
        simp only [List.mem_cons, List.mem_singleton, List.not_mem_nil, or_false] at hop
        rcases hop with hop | hop | hop
        · exact ⟨"a.png", Or.inl hop⟩
        · exact ⟨"b.png", Or.inr hop⟩
        · exact ⟨"c.png", Or.inl hop⟩)
      (Or.inl rfl)
      (by
        intro n a b c L hL
        have h2 : (Except.ok emptyListing : Except JSError Listing) = .ok L := hL
        rw [← Except.ok.inj h2]
        rfl)
      (fun _ => ⟨"u1", rfl⟩)).1,
    (identity_lookup_once forgeProxyHost
      [.getFileUrl "icons" "a.png", .fileExists "icons" "b.png", .getFileUrl "icons" "c.png"]
      [] "icons"
      (by
        intro op hop
        simp only [List.mem_cons, List.mem_singleton, List.not_mem_nil, or_false] at hop
        rcases hop with hop | hop | hop
        · exact ⟨"a.png", Or.inl hop⟩
        · exact ⟨"b.png", Or.inr hop⟩
        · exact ⟨"c.png", Or.inl hop⟩)
      (Or.inl rfl)
      (by
        intro n a b c L hL
        have h2 : (Except.ok emptyListing : Except JSError Listing) = .ok L := hL
        rw [← Except.ok.inj h2]
        rfl)
      (fun _ => ⟨"u1", rfl⟩)).2 rfl "https://assets.forge-vtt.com/u1/icons" "d.png" rfl⟩

end NoteLicker
